import Mathlib

/-!
Verification of the reconciliation engine of the projectriff system
controllers.

The development shallowly embeds, in Lean, the Go code of the repository:
the `DeployerSpec` defaulting webhook, the FunctionBuild reconciler
(driver `Reconcile`, inner `reconcile`, the per-child convergence
functions `reconcileBuildCache` / `createBuildCache` / `reconcileBuild` /
`createBuild`, and the semantic-equality predicates), and — where the
repository's sources for a component are not available (the condition
manager of the `apis` package and the deployer child reconciler, of which
only tests and callers are present) — a model written from the
specification, marked `Modelled from the spec:` in its doc comment.

Cluster interactions are embedded as explicit state passing: a `World`
holds the owner and the children visible to the reconciler's listers, the
reconciler returns the list of client calls (`Act`) it issued together
with its error outcome, and injected client failures are threaded through
a `Faults` record, mirroring the fake-client failure reactors used by the
repository's table tests.
-/

/-- Status of a condition: corev1.ConditionTrue / ConditionFalse /
ConditionUnknown. -/
inductive CStatus where
  | ctrue
  | cfalse
  | cunknown
deriving DecidableEq

/-- A typed status condition: (Type, Status, Reason, Message).
LastTransitionTime is not modelled (wall-clock time). -/
structure Condition where
  ctype : String
  status : CStatus
  reason : String
  message : String
deriving DecidableEq

/-- A condition with Unknown status and empty reason/message, the initial
value for every tracked condition type. -/
def unknownCond (t : String) : Condition :=
  { ctype := t, status := CStatus.cunknown, reason := "", message := "" }

/-- Modelled from the spec: the `Ready` aggregation rule of the condition
manager (the `apis` condition-set code is not among the available
sources; its behavior is fixed by spec section 4.2 and by the deployer
controller table test). Given the tracked non-Ready conditions listed in
the fixed declared order, `Ready` is False with the reason and message of
the first False condition if one exists, True if every tracked condition
is True, and Unknown otherwise. -/
def aggregateReady (readyType : String) (conds : List Condition) : Condition :=
  match conds.find? (fun c => c.status == CStatus.cfalse) with
  | some c => { ctype := readyType, status := CStatus.cfalse, reason := c.reason, message := c.message }
  | none =>
    if conds.all (fun c => c.status == CStatus.ctrue) then
      { ctype := readyType, status := CStatus.ctrue, reason := "", message := "" }
    else
      { ctype := readyType, status := CStatus.cunknown, reason := "", message := "" }

/-- A container of a pod template. Only the fields the embedding needs are
named; everything else is folded into `rest`. -/
structure Container where
  image : String
  rest : String
deriving DecidableEq

/-- corev1.PodTemplateSpec as used by `DeployerSpec.Default`: the
annotation map, the label map, the container list. Go distinguishes nil
maps from empty maps, hence the `Option`. All remaining meta and spec
fields are folded into `metaRest` / `specRest`. -/
structure PodTemplateSpec where
  annots : Option (List (String × String))
  labels : Option (List (String × String))
  containers : List Container
  metaRest : String
  specRest : String
deriving DecidableEq

/-- The zero value `corev1.PodTemplateSpec` allocated by the defaulter. -/
def emptyPodTemplateSpec : PodTemplateSpec :=
  { annots := none, labels := none, containers := [], metaRest := "", specRest := "" }

/-- The zero value `corev1.Container` appended by the defaulter. -/
def emptyContainer : Container :=
  { image := "", rest := "" }

/-- Modelled from the spec: the value of the `IngressPolicyClusterLocal`
constant (declared outside the available sources); only its non-emptiness
matters to the defaulter. -/
def IngressPolicyClusterLocal : String := "ClusterLocal"

/-- knativev1alpha1.DeployerSpec as seen by its defaulting webhook: the
pod template, the ingress policy, everything else folded into `rest`. -/
structure DeployerSpec where
  template : Option PodTemplateSpec
  ingressPolicy : String
  rest : String
deriving DecidableEq

/-- Step of `DeployerSpec.Default`: fill a nil annotation map. -/
def defaultAnnots (t : PodTemplateSpec) : PodTemplateSpec :=
  if t.annots = none then { t with annots := some [] } else t

/-- Step of `DeployerSpec.Default`: fill a nil label map. -/
def defaultLabels (t : PodTemplateSpec) : PodTemplateSpec :=
  if t.labels = none then { t with labels := some [] } else t

/-- Step of `DeployerSpec.Default`: append one zero container to an empty
container list. -/
def defaultContainers (t : PodTemplateSpec) : PodTemplateSpec :=
  if t.containers = [] then { t with containers := t.containers ++ [emptyContainer] } else t

/-- The template produced by `DeployerSpec.Default`, in the statement
order of the Go code. -/
def defaultedTemplate (t : PodTemplateSpec) : PodTemplateSpec :=
  defaultContainers (defaultLabels (defaultAnnots t))

/-- Embedding of `func (s *DeployerSpec) Default()`: fill a nil template,
nil annotation/label maps, an empty container list, and an empty ingress
policy; leave everything else alone. -/
def DeployerSpec.Default (s : DeployerSpec) : DeployerSpec :=
  { s with
    template := some (defaultedTemplate (match s.template with
      | none => emptyPodTemplateSpec
      | some t => t)),
    ingressPolicy := if s.ingressPolicy = "" then IngressPolicyClusterLocal else s.ingressPolicy }

/-- C1: for every declared set of tracked dependency conditions (listed in
the fixed declared order), the derived Ready condition is True iff every
tracked non-Ready condition is True; if at least one tracked condition is
False, Ready is False and carries the Reason and Message of the first
False condition in the declared order; if no tracked condition is False
but at least one is Unknown, Ready is Unknown. -/
theorem ready_aggregation (readyType : String) (conds : List Condition) :
    ((aggregateReady readyType conds).status = CStatus.ctrue ↔
      ∀ c ∈ conds, c.status = CStatus.ctrue)
    ∧ (∀ c, conds.find? (fun c => c.status == CStatus.cfalse) = some c →
        aggregateReady readyType conds =
          { ctype := readyType, status := CStatus.cfalse, reason := c.reason, message := c.message })
    ∧ ((∀ c ∈ conds, c.status ≠ CStatus.cfalse) →
        (∃ c ∈ conds, c.status = CStatus.cunknown) →
        (aggregateReady readyType conds).status = CStatus.cunknown) := by
  refine ⟨?_, ?_, ?_⟩
  · cases hf : conds.find? (fun c => c.status == CStatus.cfalse) with
    | some c =>
      have hmem := List.mem_of_find?_eq_some hf
      have hfalse : c.status = CStatus.cfalse := by
        have := List.find?_some hf
        simpa using this
      have he : aggregateReady readyType conds =
          { ctype := readyType, status := CStatus.cfalse, reason := c.reason, message := c.message } := by
        unfold aggregateReady; rw [hf]
      rw [he]
      constructor
      · intro h; exact absurd h (by simp)
      · intro h
        have hc := h c hmem
        rw [hfalse] at hc
        exact absurd hc (by decide)
    | none =>
      have he : aggregateReady readyType conds =
          if conds.all (fun c => c.status == CStatus.ctrue) then
            { ctype := readyType, status := CStatus.ctrue, reason := "", message := "" }
          else
            { ctype := readyType, status := CStatus.cunknown, reason := "", message := "" } := by
        unfold aggregateReady; rw [hf]
      rw [he]
      by_cases hall : conds.all (fun c => c.status == CStatus.ctrue)
      · rw [if_pos hall]
        constructor
        · intro _ c hc
          have := List.all_eq_true.mp hall c hc
          simpa using this
        · intro _; rfl
      · rw [if_neg hall]
        constructor
        · intro h; exact absurd h (by simp)
        · intro h
          exact absurd (List.all_eq_true.mpr (fun c hc => by simpa using h c hc)) hall
  · intro c hf
    unfold aggregateReady
    rw [hf]
  · intro hnf hu
    have hfind : conds.find? (fun c => c.status == CStatus.cfalse) = none := by
      rw [List.find?_eq_none]
      intro c hc
      simpa using hnf c hc
    obtain ⟨c, hc, hcu⟩ := hu
    have hall : ¬ conds.all (fun c => c.status == CStatus.ctrue) := by
      intro hall
      have := List.all_eq_true.mp hall c hc
      rw [hcu] at this
      simp at this
    have he : aggregateReady readyType conds =
        { ctype := readyType, status := CStatus.cunknown, reason := "", message := "" } := by
      unfold aggregateReady; rw [hfind, if_neg hall]
    rw [he]

/-- C10: `DeployerSpec.Default` is idempotent, and non-destructive: it
only fills a nil template, nil annotation/label maps, an empty container
list, and an empty ingress policy, leaving every already-populated field
unchanged. -/
theorem deployerSpec_default_idem_nondestructive (s : DeployerSpec) :
    DeployerSpec.Default (DeployerSpec.Default s) = DeployerSpec.Default s
    ∧ (DeployerSpec.Default s).rest = s.rest
    ∧ (s.ingressPolicy ≠ "" → (DeployerSpec.Default s).ingressPolicy = s.ingressPolicy)
    ∧ (∀ t, s.template = some t →
        ∃ t', (DeployerSpec.Default s).template = some t'
          ∧ t'.metaRest = t.metaRest
          ∧ t'.specRest = t.specRest
          ∧ (t.annots ≠ none → t'.annots = t.annots)
          ∧ (t.labels ≠ none → t'.labels = t.labels)
          ∧ (t.containers ≠ [] → t'.containers = t.containers)) := by
  obtain ⟨tmpl, ip, rest⟩ := s
  refine ⟨?_, ?_, ?_, ?_⟩
  · by_cases hip : ip = "" <;>
      cases tmpl with
      | none =>
        simp [DeployerSpec.Default, defaultedTemplate, defaultAnnots, defaultLabels,
          defaultContainers, hip, emptyPodTemplateSpec, IngressPolicyClusterLocal]
      | some t =>
        by_cases ha : t.annots = none <;> by_cases hl : t.labels = none <;>
          by_cases hc : t.containers = [] <;>
          simp [DeployerSpec.Default, defaultedTemplate, defaultAnnots, defaultLabels,
            defaultContainers, hip, ha, hl, hc, IngressPolicyClusterLocal]
  · simp [DeployerSpec.Default]
  · intro h
    simp only [ne_eq] at h
    simp [DeployerSpec.Default, if_neg h]
  · intro t ht
    have htm : tmpl = some t := ht
    subst htm
    refine ⟨defaultedTemplate t, by simp [DeployerSpec.Default], ?_, ?_, ?_, ?_, ?_⟩ <;>
      by_cases ha : t.annots = none <;> by_cases hl : t.labels = none <;>
        by_cases hc : t.containers = [] <;>
        simp [defaultedTemplate, defaultAnnots, defaultLabels, defaultContainers,
          ha, hl, hc]

/-- The deployer test's "not ready, configuration" row: ConfigurationReady
False with reason TestReason, RouteReady True, in declared order. -/
def notReadyRowConds : List Condition :=
  [{ ctype := "ConfigurationReady", status := CStatus.cfalse, reason := "TestReason", message := "a human readable message" },
   { ctype := "RouteReady", status := CStatus.ctrue, reason := "", message := "" }]

/-- Witness for C1 at the deployer controller test's "not ready,
configuration" row: ConfigurationReady is False with reason TestReason,
RouteReady is True, and the aggregate Ready is False with the same
reason and message. -/
theorem ready_aggregation_witness :
    ((aggregateReady "Ready" notReadyRowConds).status = CStatus.ctrue ↔
      ∀ c ∈ notReadyRowConds, c.status = CStatus.ctrue)
    ∧ aggregateReady "Ready" notReadyRowConds =
      { ctype := "Ready", status := CStatus.cfalse, reason := "TestReason", message := "a human readable message" } := by
  exact ⟨(ready_aggregation "Ready" notReadyRowConds).1,
    (ready_aggregation "Ready" notReadyRowConds).2.1
      { ctype := "ConfigurationReady", status := CStatus.cfalse, reason := "TestReason", message := "a human readable message" }
      (by decide)⟩

/-- Witness for C10 at a concrete populated spec: defaulting twice equals
defaulting once and populated fields survive. -/
theorem deployerSpec_default_witness :
    (DeployerSpec.Default (DeployerSpec.Default
        { template := some { annots := some [("a", "b")], labels := none, containers := [{ image := "img", rest := "r" }], metaRest := "m", specRest := "s" },
          ingressPolicy := "External", rest := "other" })
      = DeployerSpec.Default
        { template := some { annots := some [("a", "b")], labels := none, containers := [{ image := "img", rest := "r" }], metaRest := "m", specRest := "s" },
          ingressPolicy := "External", rest := "other" })
    ∧ (DeployerSpec.Default
        { template := some { annots := some [("a", "b")], labels := none, containers := [{ image := "img", rest := "r" }], metaRest := "m", specRest := "s" },
          ingressPolicy := "External", rest := "other" }).ingressPolicy = "External" := by
  refine ⟨(deployerSpec_default_idem_nondestructive _).1, ?_⟩
  have h := (deployerSpec_default_idem_nondestructive
    { template := some { annots := some [("a", "b")], labels := none, containers := [{ image := "img", rest := "r" }], metaRest := "m", specRest := "s" },
      ingressPolicy := "External", rest := "other" }).2.2.1
  exact h (by decide)

/-- Condition type tracked for the build cache child. -/
def ctBuildCacheReady : String := "BuildCacheReady"

/-- Condition type tracked for the underlying build child. -/
def ctBuildSucceeded : String := "BuildSucceeded"

/-- The derived readiness condition type. -/
def ctReady : String := "Ready"

/-- buildv1alpha1.FunctionBuildStatus, with the fixed tracked condition
set held in named fields (a condition is `none` while not yet declared).
`buildCacheName`, `buildName`, `latestImage` and `observedGeneration`
are the derived status fields the reconciler writes. -/
structure FunctionBuildStatus where
  buildCacheReady : Option Condition
  buildSucceeded : Option Condition
  ready : Option Condition
  buildCacheName : String
  buildName : String
  latestImage : String
  observedGeneration : Nat
deriving DecidableEq

/-- Recompute the derived Ready condition from the tracked conditions in
the fixed declared order (build cache first, then build). -/
def FunctionBuildStatus.recomputeReady (s : FunctionBuildStatus) : FunctionBuildStatus :=
  { s with ready := some (aggregateReady ctReady
      (s.buildCacheReady.toList ++ s.buildSucceeded.toList)) }

/-- Modelled from the spec: `Status.InitializeConditions` of the `apis`
condition manager (not among the available sources) — declare every
missing tracked condition as Unknown, never overwriting an existing
condition. -/
def FunctionBuildStatus.initConds (s : FunctionBuildStatus) : FunctionBuildStatus :=
  { s with
    buildCacheReady := some (s.buildCacheReady.getD (unknownCond ctBuildCacheReady)),
    buildSucceeded := some (s.buildSucceeded.getD (unknownCond ctBuildSucceeded)),
    ready := some (s.ready.getD (unknownCond ctReady)) }

/-- The False/NotOwned condition recording an ownership conflict on
child `kind` named `nm`. -/
def notOwnedCond (t kind nm : String) : Condition :=
  { ctype := t, status := CStatus.cfalse, reason := "NotOwned", message := "There is an existing " ++ kind ++ " " ++ nm ++ " that the FunctionBuild does not own." }

/-- The condition obtained by copying a child readiness condition
(Status, Reason, Message verbatim) onto owner-side type `t`, Unknown when
the child reports none. -/
def propagatedCond (t : String) (child : Option Condition) : Condition :=
  match child with
  | none => unknownCond t
  | some c => { ctype := t, status := c.status, reason := c.reason, message := c.message }

/-- Modelled from the spec: `Status.MarkBuildCacheNotOwned` — set the
build-cache condition False with reason NotOwned naming the conflicting
child, and rederive Ready. -/
def FunctionBuildStatus.markBuildCacheNotOwned (s : FunctionBuildStatus) (nm : String) : FunctionBuildStatus :=
  ({ s with buildCacheReady := some (notOwnedCond ctBuildCacheReady "PersistentVolumeClaim" nm) }).recomputeReady

/-- Modelled from the spec: `Status.MarkBuildCacheNotUsed` — the owner is
configured without a build cache; the condition is True with reason
NotUsed so it does not block readiness. -/
def FunctionBuildStatus.markBuildCacheNotUsed (s : FunctionBuildStatus) : FunctionBuildStatus :=
  ({ s with buildCacheReady := some { ctype := ctBuildCacheReady, status := CStatus.ctrue, reason := "NotUsed", message := "" } }).recomputeReady

/-- Modelled from the spec: `Status.PropagateBuildCacheStatus` — copy the
child's readiness condition (Status, Reason, Message) onto the owner-side
condition, Unknown when the child reports none, and rederive Ready. -/
def FunctionBuildStatus.propagateBuildCacheStatus (s : FunctionBuildStatus) (child : Option Condition) : FunctionBuildStatus :=
  ({ s with buildCacheReady := some (propagatedCond ctBuildCacheReady child) }).recomputeReady

/-- Modelled from the spec: `Status.MarkBuildNotOwned`, as for the build
cache. -/
def FunctionBuildStatus.markBuildNotOwned (s : FunctionBuildStatus) (nm : String) : FunctionBuildStatus :=
  ({ s with buildSucceeded := some (notOwnedCond ctBuildSucceeded "Build" nm) }).recomputeReady

/-- Modelled from the spec: `Status.PropagateBuildStatus`, as for the
build cache. -/
def FunctionBuildStatus.propagateBuildStatus (s : FunctionBuildStatus) (child : Option Condition) : FunctionBuildStatus :=
  ({ s with buildSucceeded := some (propagatedCond ctBuildSucceeded child) }).recomputeReady

/-- Modelled from the spec: `Status.MarkImageMissing` — record the digest
resolution failure on the build condition with reason ImageMissing, and
rederive Ready. -/
def FunctionBuildStatus.markImageMissing (s : FunctionBuildStatus) (msg : String) : FunctionBuildStatus :=
  ({ s with buildSucceeded := some { ctype := ctBuildSucceeded, status := CStatus.cfalse, reason := "ImageMissing", message := msg } }).recomputeReady

/-- Modelled from the spec: `Status.IsReady` — the derived Ready
condition is True. -/
def FunctionBuildStatus.isReady (s : FunctionBuildStatus) : Bool :=
  match s.ready with
  | some c => c.status == CStatus.ctrue
  | none => false

/-- buildv1alpha1.FunctionBuildSpec: the image reference to resolve plus
the remaining fields, folded into `rest`. -/
structure FunctionBuildSpec where
  image : String
  rest : String
deriving DecidableEq

/-- buildv1alpha1.FunctionBuild: metadata the reconciler reads (`name`,
`generation`, deletion timestamp as a flag), spec and status. -/
structure FunctionBuild where
  name : String
  generation : Nat
  deleted : Bool
  spec : FunctionBuildSpec
  status : FunctionBuildStatus
deriving DecidableEq

/-- corev1.PersistentVolumeClaim as the reconciler sees it: identity
(`name`, `uid`), the controller-owner-reference check result
(`controlled`), the owned fields (`resources`, `labels`), every other
spec/meta field folded into `specRest` / `metaRest`, and the readiness
condition of its status. -/
structure PersistentVolumeClaim where
  name : String
  uid : Nat
  controlled : Bool
  resources : String
  labels : List (String × String)
  specRest : String
  metaRest : String
  readyCond : Option Condition
deriving DecidableEq

/-- knbuildv1alpha1.Build: identity, ownership check result, the owned
fields (`spec`, `labels`), other meta folded into `metaRest`, and the
readiness condition of its status. -/
structure KnBuild where
  name : String
  controlled : Bool
  spec : String
  labels : List (String × String)
  metaRest : String
  readyCond : Option Condition
deriving DecidableEq

/-- Embedding of `buildCacheSemanticEquals`: deep equality restricted to
the owned fields Spec.Resources and ObjectMeta.Labels. -/
def buildCacheSemanticEquals (desired buildCache : PersistentVolumeClaim) : Prop :=
  desired.resources = buildCache.resources ∧ desired.labels = buildCache.labels

instance (d p : PersistentVolumeClaim) : Decidable (buildCacheSemanticEquals d p) := by
  unfold buildCacheSemanticEquals; infer_instance

/-- Embedding of `buildSemanticEquals`: deep equality restricted to the
owned fields Spec and ObjectMeta.Labels. -/
def buildSemanticEquals (desired build : KnBuild) : Prop :=
  desired.spec = build.spec ∧ desired.labels = build.labels

instance (d b : KnBuild) : Decidable (buildSemanticEquals d b) := by
  unfold buildSemanticEquals; infer_instance

/-- The collaborators of the reconciler that are computed outside the
available sources and injected here as functions: `SetDefaults` on the
spec, the `resourcenames` naming scheme, `resources.MakeBuildCache` /
`resources.MakeBuild` (desired-state computation from the defaulted
spec; `none` means no build cache is desired), and the digest resolver.
All are deterministic functions of their arguments, matching spec
section 4.1 and 4.3 step 1. -/
structure Deps where
  setDefaults : FunctionBuildSpec → FunctionBuildSpec
  buildCacheName : String → String
  buildName : String → String
  makeBuildCache : String → FunctionBuildSpec → Except String (Option PersistentVolumeClaim)
  makeBuild : String → FunctionBuildSpec → Except String KnBuild
  resolve : String → Except String String

/-- Injected client failures, mirroring the failure reactors of the
repository's table tests: each flag makes the corresponding client call
return an error. -/
structure Faults where
  getOwner : Bool
  getPvc : Bool
  createPvc : Bool
  updatePvc : Bool
  deletePvc : Bool
  getBuild : Bool
  createBuild : Bool
  updateBuild : Bool
  updateStatus : Bool
deriving DecidableEq

/-- No injected failures. -/
def noFaults : Faults :=
  { getOwner := false, getPvc := false, createPvc := false, updatePvc := false,
    deletePvc := false, getBuild := false, createBuild := false, updateBuild := false,
    updateStatus := false }

/-- A client call issued by the reconciler. `resolveCall` is the
read-only registry lookup; every other constructor is a cluster write. -/
inductive Act where
  | createPvc (p : PersistentVolumeClaim)
  | updatePvc (p : PersistentVolumeClaim)
  | deletePvc (name : String) (uid : Nat)
  | createBuild (b : KnBuild)
  | updateBuild (b : KnBuild)
  | resolveCall (image : String)
  | updateStatus (s : FunctionBuildStatus)
deriving DecidableEq

/-- Whether a client call mutates cluster state. -/
def Act.isWrite : Act → Bool
  | .resolveCall _ => false
  | _ => true

/-- The cluster state visible through the reconciler's listers: the owner
under the reconciled key, the PersistentVolumeClaim carrying the owner's
canonical build-cache name, and the Build carrying the canonical build
name (each `none` when absent). -/
structure World where
  owner : Option FunctionBuild
  pvc : Option PersistentVolumeClaim
  build : Option KnBuild
deriving DecidableEq

/-- Effect of one client write on the visible cluster state. -/
def applyAct (w : World) (a : Act) : World :=
  match a with
  | .createPvc p => { w with pvc := some p }
  | .updatePvc p => { w with pvc := some p }
  | .deletePvc _ _ => { w with pvc := none }
  | .createBuild b => { w with build := some b }
  | .updateBuild b => { w with build := some b }
  | .resolveCall _ => w
  | .updateStatus s => { w with owner := w.owner.map (fun fb => { fb with status := s }) }

/-- Effect of a call sequence on the visible cluster state. -/
def applyActs (w : World) (acts : List Act) : World :=
  acts.foldl applyAct w

/-- Embedding of `Reconciler.reconcileBuildCache`: recompute the desired
build cache; if none is desired, delete the observed one with a UID
precondition; if the owned fields already semantically match, do
nothing; otherwise copy only the owned fields (Spec.Resources,
ObjectMeta.Labels) onto a fresh copy of the observed object and update. -/
def reconcileBuildCache (deps : Deps) (faults : Faults) (nm : String) (sp : FunctionBuildSpec)
    (buildCache : PersistentVolumeClaim) : List Act × Except String (Option PersistentVolumeClaim) :=
  match deps.makeBuildCache nm sp with
  | .error e => ([], .error e)
  | .ok none =>
    if faults.deletePvc then
      ([Act.deletePvc buildCache.name buildCache.uid], .error "failed to delete PersistentVolumeClaim")
    else
      ([Act.deletePvc buildCache.name buildCache.uid], .ok none)
  | .ok (some desired) =>
    if buildCacheSemanticEquals desired buildCache then
      ([], .ok (some buildCache))
    else
      let existing := { buildCache with resources := desired.resources, labels := desired.labels }
      if faults.updatePvc then
        ([Act.updatePvc existing], .error "failed to update PersistentVolumeClaim")
      else
        ([Act.updatePvc existing], .ok (some existing))

/-- Embedding of `Reconciler.createBuildCache`: compute the desired build
cache and create it; `none` desired means nothing to create. -/
def createBuildCache (deps : Deps) (faults : Faults) (nm : String) (sp : FunctionBuildSpec) :
    List Act × Except String (Option PersistentVolumeClaim) :=
  match deps.makeBuildCache nm sp with
  | .error e => ([], .error e)
  | .ok none => ([], .ok none)
  | .ok (some d) =>
    if faults.createPvc then
      ([Act.createPvc d], .error "failed to create PersistentVolumeClaim")
    else
      ([Act.createPvc d], .ok (some d))

/-- Embedding of `Reconciler.reconcileBuild`: recompute the desired
build; if the owned fields (Spec, ObjectMeta.Labels) already
semantically match, do nothing; otherwise copy only those fields onto a
fresh copy of the observed object and update. -/
def reconcileBuild (deps : Deps) (faults : Faults) (nm : String) (sp : FunctionBuildSpec)
    (build : KnBuild) : List Act × Except String KnBuild :=
  match deps.makeBuild nm sp with
  | .error e => ([], .error e)
  | .ok desired =>
    if buildSemanticEquals desired build then
      ([], .ok build)
    else
      let existing := { build with spec := desired.spec, labels := desired.labels }
      if faults.updateBuild then
        ([Act.updateBuild existing], .error "failed to update Build")
      else
        ([Act.updateBuild existing], .ok existing)

/-- Embedding of `Reconciler.createBuild`: compute the desired build and
create it. -/
def createBuild (deps : Deps) (faults : Faults) (nm : String) (sp : FunctionBuildSpec) :
    List Act × Except String KnBuild :=
  match deps.makeBuild nm sp with
  | .error e => ([], .error e)
  | .ok d =>
    if faults.createBuild then
      ([Act.createBuild d], .error "failed to create Build")
    else
      ([Act.createBuild d], .ok d)

/-- Outcome of one child-synchronization block of `reconcile`: success
with the canonical observed child, a client failure, or an ownership
conflict (a child with the canonical name exists without the owner's
controller owner reference). -/
inductive StageRes (chi : Type) where
  | ok (acts : List Act) (x : chi)
  | fail (acts : List Act) (e : String)
  | notOwned (nm : String)
deriving DecidableEq

/-- Embedding of the build-cache block of `Reconciler.reconcile`: get the
PersistentVolumeClaim with the canonical name; create on not-found;
surface an ownership conflict without touching the child when the
controller check fails; otherwise converge via `reconcileBuildCache`. -/
def buildCacheStage (deps : Deps) (faults : Faults) (nm : String) (sp : FunctionBuildSpec) :
    Option PersistentVolumeClaim → StageRes (Option PersistentVolumeClaim)
  | none =>
    if faults.getPvc then .fail [] "failed to get PersistentVolumeClaim" else
    match createBuildCache deps faults nm sp with
    | (acts, .error e) => .fail acts e
    | (acts, .ok bc) => .ok acts bc
  | some p =>
    if faults.getPvc then .fail [] "failed to get PersistentVolumeClaim" else
    if p.controlled = false then .notOwned nm
    else
      match reconcileBuildCache deps faults nm sp p with
      | (acts, .error e) => .fail acts e
      | (acts, .ok bc) => .ok acts bc

/-- Embedding of the build block of `Reconciler.reconcile`: get the Build
with the canonical name; create on not-found; surface an ownership
conflict without touching the child when the controller check fails;
otherwise converge via `reconcileBuild`. -/
def buildStage (deps : Deps) (faults : Faults) (nm : String) (sp : FunctionBuildSpec) :
    Option KnBuild → StageRes KnBuild
  | none =>
    if faults.getBuild then .fail [] "failed to get Build" else
    match createBuild deps faults nm sp with
    | (acts, .error e) => .fail acts e
    | (acts, .ok b) => .ok acts b
  | some b =>
    if faults.getBuild then .fail [] "failed to get Build" else
    if b.controlled = false then .notOwned nm
    else
      match reconcileBuild deps faults nm sp b with
      | (acts, .error e) => .fail acts e
      | (acts, .ok b2) => .ok acts b2

/-- The status updates of `Reconciler.reconcile` driven by the observed
children: build-cache name and propagated condition (or NotUsed), then
build name and propagated condition. -/
def afterChildren (s : FunctionBuildStatus) (bc : Option PersistentVolumeClaim) (b : KnBuild) :
    FunctionBuildStatus :=
  let s1 := match bc with
    | none => s.markBuildCacheNotUsed
    | some p => ({ s with buildCacheName := p.name }).propagateBuildCacheStatus p.readyCond
  ({ s1 with buildName := b.name }).propagateBuildStatus b.readyCond

/-- Embedding of `Reconciler.reconcile`: succeed immediately for a
deleted owner; default the spec in memory; declare conditions; converge
the build cache then the build, short-circuiting on failure after
marking NotOwned conflicts; propagate child health; when Ready, resolve
the image digest, recording ImageMissing and failing on resolution
error; finally record the observed generation. Returns the owner copy
with its recomputed status, the client calls issued, and the error. -/
def reconcile (deps : Deps) (faults : Faults) (w : World) (fb0 : FunctionBuild) :
    FunctionBuild × List Act × Option String :=
  if fb0.deleted then (fb0, [], none) else
  let sp := deps.setDefaults fb0.spec
  let s0 := fb0.status.initConds
  match buildCacheStage deps faults (deps.buildCacheName fb0.name) sp w.pvc with
  | .notOwned nm =>
    ({ fb0 with spec := sp, status := s0.markBuildCacheNotOwned nm }, [],
      some ("FunctionBuild does not own PersistentVolumeClaim " ++ nm))
  | .fail acts e => ({ fb0 with spec := sp, status := s0 }, acts, some e)
  | .ok acts1 bc =>
    match buildStage deps faults (deps.buildName fb0.name) sp w.build with
    | .notOwned nm =>
      let s1 := match bc with
        | none => s0.markBuildCacheNotUsed
        | some p => ({ s0 with buildCacheName := p.name }).propagateBuildCacheStatus p.readyCond
      ({ fb0 with spec := sp, status := s1.markBuildNotOwned nm }, acts1,
        some ("FunctionBuild does not own Build " ++ nm))
    | .fail acts2 e =>
      let s1 := match bc with
        | none => s0.markBuildCacheNotUsed
        | some p => ({ s0 with buildCacheName := p.name }).propagateBuildCacheStatus p.readyCond
      ({ fb0 with spec := sp, status := s1 }, acts1 ++ acts2, some e)
    | .ok acts2 b =>
      let s2 := afterChildren s0 bc b
      if s2.isReady then
        match deps.resolve sp.image with
        | .error e =>
          ({ fb0 with spec := sp, status := s2.markImageMissing ("Unable to fetch image " ++ sp.image ++ ": " ++ e) },
            acts1 ++ acts2 ++ [Act.resolveCall sp.image], some e)
        | .ok dg =>
          ({ fb0 with spec := sp, status := { s2 with latestImage := dg, observedGeneration := fb0.generation } },
            acts1 ++ acts2 ++ [Act.resolveCall sp.image], none)
      else
        ({ fb0 with spec := sp, status := { s2 with observedGeneration := fb0.generation } },
          acts1 ++ acts2, none)

/-- Embedding of `Reconciler.Reconcile`: fetch the owner (not-found is a
benign no-op); run `reconcile` on a deep copy; compare the freshly
computed status to the originally fetched status by deep structural
equality and skip the status write when unchanged; otherwise attempt the
status write regardless of the inner error, returning the write error on
write failure and the inner error otherwise. -/
def Reconcile (deps : Deps) (faults : Faults) (w : World) : List Act × Option String :=
  if faults.getOwner then ([], some "failed to get FunctionBuild") else
  match w.owner with
  | none => ([], none)
  | some original =>
    match reconcile deps faults w original with
    | (fb, acts, err) =>
      if original.status = fb.status then (acts, err)
      else
        if faults.updateStatus then
          (acts ++ [Act.updateStatus fb.status], some "failed to update FunctionBuild status")
        else
          (acts ++ [Act.updateStatus fb.status], err)

/-- Whether a client call is the owner status write. -/
def Act.isStatusWrite : Act → Bool
  | .updateStatus _ => true
  | _ => false

/-- The calls issued by `createBuildCache` are nothing or one create. -/
theorem createBuildCache_shape (deps : Deps) (faults : Faults) (nm : String) (sp : FunctionBuildSpec) :
    (createBuildCache deps faults nm sp).1 = []
    ∨ ∃ d, (createBuildCache deps faults nm sp).1 = [Act.createPvc d] := by
  unfold createBuildCache
  cases h : deps.makeBuildCache nm sp with
  | error e => left; rfl
  | ok ob =>
    cases ob with
    | none => left; rfl
    | some d =>
      right
      exact ⟨d, by cases hf : faults.createPvc <;> simp [hf]⟩

/-- The calls issued by `reconcileBuildCache` are nothing, one delete, or
one update. -/
theorem reconcileBuildCache_shape (deps : Deps) (faults : Faults) (nm : String)
    (sp : FunctionBuildSpec) (p : PersistentVolumeClaim) :
    (reconcileBuildCache deps faults nm sp p).1 = []
    ∨ (∃ n u, (reconcileBuildCache deps faults nm sp p).1 = [Act.deletePvc n u])
    ∨ (∃ q, (reconcileBuildCache deps faults nm sp p).1 = [Act.updatePvc q]) := by
  unfold reconcileBuildCache
  cases h : deps.makeBuildCache nm sp with
  | error e => left; rfl
  | ok ob =>
    cases ob with
    | none =>
      right; left
      exact ⟨p.name, p.uid, by cases hf : faults.deletePvc <;> simp [hf]⟩
    | some d =>
      by_cases he : buildCacheSemanticEquals d p
      · left; simp [he]
      · right; right
        exact ⟨{ p with resources := d.resources, labels := d.labels },
          by cases hf : faults.updatePvc <;> simp [he, hf]⟩

/-- The calls issued by `createBuild` are nothing or one create. -/
theorem createBuild_shape (deps : Deps) (faults : Faults) (nm : String) (sp : FunctionBuildSpec) :
    (createBuild deps faults nm sp).1 = []
    ∨ ∃ d, (createBuild deps faults nm sp).1 = [Act.createBuild d] := by
  unfold createBuild
  cases h : deps.makeBuild nm sp with
  | error e => left; rfl
  | ok d =>
    right
    exact ⟨d, by cases hf : faults.createBuild <;> simp [hf]⟩

/-- The calls issued by `reconcileBuild` are nothing or one update. -/
theorem reconcileBuild_shape (deps : Deps) (faults : Faults) (nm : String)
    (sp : FunctionBuildSpec) (b : KnBuild) :
    (reconcileBuild deps faults nm sp b).1 = []
    ∨ ∃ q, (reconcileBuild deps faults nm sp b).1 = [Act.updateBuild q] := by
  unfold reconcileBuild
  cases h : deps.makeBuild nm sp with
  | error e => left; rfl
  | ok d =>
    by_cases he : buildSemanticEquals d b
    · left; simp [he]
    · right
      exact ⟨{ b with spec := d.spec, labels := d.labels },
        by cases hf : faults.updateBuild <;> simp [he, hf]⟩


/-- Inversion of a successful build-cache block: exactly one of the five
convergence outcomes happened — nothing desired and nothing observed,
create, precondition-guarded delete, semantic match, or an owned-fields
update. -/
theorem buildCacheStage_ok_inv (deps : Deps) (faults : Faults) (nm : String)
    (sp : FunctionBuildSpec) (pvc : Option PersistentVolumeClaim) (acts : List Act)
    (bc : Option PersistentVolumeClaim)
    (h : buildCacheStage deps faults nm sp pvc = .ok acts bc) :
    faults.getPvc = false ∧
    ((pvc = none ∧ deps.makeBuildCache nm sp = Except.ok none ∧ acts = [] ∧ bc = none)
     ∨ (∃ d, pvc = none ∧ deps.makeBuildCache nm sp = Except.ok (some d)
          ∧ faults.createPvc = false ∧ acts = [Act.createPvc d] ∧ bc = some d)
     ∨ (∃ p, pvc = some p ∧ p.controlled = true ∧ deps.makeBuildCache nm sp = Except.ok none
          ∧ faults.deletePvc = false ∧ acts = [Act.deletePvc p.name p.uid] ∧ bc = none)
     ∨ (∃ p d, pvc = some p ∧ p.controlled = true
          ∧ deps.makeBuildCache nm sp = Except.ok (some d)
          ∧ buildCacheSemanticEquals d p ∧ acts = [] ∧ bc = some p)
     ∨ (∃ p d, pvc = some p ∧ p.controlled = true
          ∧ deps.makeBuildCache nm sp = Except.ok (some d)
          ∧ ¬ buildCacheSemanticEquals d p ∧ faults.updatePvc = false
          ∧ acts = [Act.updatePvc { p with resources := d.resources, labels := d.labels }]
          ∧ bc = some { p with resources := d.resources, labels := d.labels })) := by
  cases pvc with
  | none =>
    cases hgp : faults.getPvc with
    | true => simp [buildCacheStage, hgp] at h
    | false =>
      refine ⟨rfl, ?_⟩
      simp only [buildCacheStage, hgp, Bool.false_eq_true, if_false] at h
      rcases hmk : deps.makeBuildCache nm sp with e | ob
      · simp [createBuildCache, hmk] at h
      · cases ob with
        | none =>
          simp [createBuildCache, hmk] at h
          obtain ⟨h1, h2⟩ := h
          subst h1; subst h2
          left
          exact ⟨rfl, rfl, rfl, rfl⟩
        | some d =>
          cases hcf : faults.createPvc with
          | true => simp [createBuildCache, hmk, hcf] at h
          | false =>
            simp [createBuildCache, hmk, hcf] at h
            obtain ⟨h1, h2⟩ := h
            subst h1; subst h2
            right; left
            exact ⟨d, rfl, rfl, rfl, rfl, rfl⟩
  | some p =>
    cases hgp : faults.getPvc with
    | true => simp [buildCacheStage, hgp] at h
    | false =>
      refine ⟨rfl, ?_⟩
      simp only [buildCacheStage, hgp, Bool.false_eq_true, if_false] at h
      cases hctl : p.controlled with
      | false => simp [hctl] at h
      | true =>
        simp only [hctl, Bool.true_eq_false, if_false] at h
        rcases hmk : deps.makeBuildCache nm sp with e | ob
        · simp [reconcileBuildCache, hmk] at h
        · cases ob with
          | none =>
            cases hdf : faults.deletePvc with
            | true => simp [reconcileBuildCache, hmk, hdf] at h
            | false =>
              simp [reconcileBuildCache, hmk, hdf] at h
              obtain ⟨h1, h2⟩ := h
              subst h1; subst h2
              right; right; left
              exact ⟨p, rfl, hctl, rfl, rfl, rfl, rfl⟩
          | some d =>
            by_cases he : buildCacheSemanticEquals d p
            · simp [reconcileBuildCache, hmk, he] at h
              obtain ⟨h1, h2⟩ := h
              subst h1; subst h2
              right; right; right; left
              exact ⟨p, d, rfl, hctl, rfl, he, rfl, rfl⟩
            · cases huf : faults.updatePvc with
              | true => simp [reconcileBuildCache, hmk, he, huf] at h
              | false =>
                simp [reconcileBuildCache, hmk, he, huf] at h
                obtain ⟨h1, h2⟩ := h
                subst h1; subst h2
                right; right; right; right
                exact ⟨p, d, rfl, hctl, rfl, he, rfl, rfl, rfl⟩

/-- Inversion of a successful build block: create, semantic match, or an
owned-fields update. -/
theorem buildStage_ok_inv (deps : Deps) (faults : Faults) (nm : String)
    (sp : FunctionBuildSpec) (build : Option KnBuild) (acts : List Act) (b : KnBuild)
    (h : buildStage deps faults nm sp build = .ok acts b) :
    faults.getBuild = false ∧
    ((build = none ∧ deps.makeBuild nm sp = Except.ok b
        ∧ faults.createBuild = false ∧ acts = [Act.createBuild b])
     ∨ (∃ d, build = some b ∧ b.controlled = true ∧ deps.makeBuild nm sp = Except.ok d
          ∧ buildSemanticEquals d b ∧ acts = [])
     ∨ (∃ b0 d, build = some b0 ∧ b0.controlled = true ∧ deps.makeBuild nm sp = Except.ok d
          ∧ ¬ buildSemanticEquals d b0 ∧ faults.updateBuild = false
          ∧ acts = [Act.updateBuild { b0 with spec := d.spec, labels := d.labels }]
          ∧ b = { b0 with spec := d.spec, labels := d.labels })) := by
  cases build with
  | none =>
    cases hgb : faults.getBuild with
    | true => simp [buildStage, hgb] at h
    | false =>
      refine ⟨rfl, ?_⟩
      simp only [buildStage, hgb, Bool.false_eq_true, if_false] at h
      rcases hmk : deps.makeBuild nm sp with e | d
      · simp [createBuild, hmk] at h
      · cases hcf : faults.createBuild with
        | true => simp [createBuild, hmk, hcf] at h
        | false =>
          simp [createBuild, hmk, hcf] at h
          obtain ⟨h1, h2⟩ := h
          subst h1; subst h2
          left
          exact ⟨rfl, rfl, rfl, rfl⟩
  | some b0 =>
    cases hgb : faults.getBuild with
    | true => simp [buildStage, hgb] at h
    | false =>
      refine ⟨rfl, ?_⟩
      simp only [buildStage, hgb, Bool.false_eq_true, if_false] at h
      cases hctl : b0.controlled with
      | false => simp [hctl] at h
      | true =>
        simp only [hctl, Bool.true_eq_false, if_false] at h
        rcases hmk : deps.makeBuild nm sp with e | d
        · simp [reconcileBuild, hmk] at h
        · by_cases he : buildSemanticEquals d b0
          · simp [reconcileBuild, hmk, he] at h
            obtain ⟨h1, h2⟩ := h
            subst h1; subst h2
            right; left
            exact ⟨d, rfl, hctl, rfl, he, rfl⟩
          · cases huf : faults.updateBuild with
            | true => simp [reconcileBuild, hmk, he, huf] at h
            | false =>
              simp [reconcileBuild, hmk, he, huf] at h
              obtain ⟨h1, h2⟩ := h
              subst h1; subst h2
              right; right
              exact ⟨b0, d, rfl, hctl, rfl, he, rfl, rfl, rfl⟩

/-- The client calls carried by a child-synchronization outcome. -/
def StageRes.acts {chi : Type} : StageRes chi → List Act
  | .ok a _ => a
  | .fail a _ => a
  | .notOwned _ => []

/-- Calls of the build-cache block, over all outcomes: nothing, one
create, one delete, or one update of the PersistentVolumeClaim. -/
theorem buildCacheStage_acts_shape (deps : Deps) (faults : Faults) (nm : String)
    (sp : FunctionBuildSpec) (pvc : Option PersistentVolumeClaim) :
    (buildCacheStage deps faults nm sp pvc).acts = []
    ∨ (∃ d, (buildCacheStage deps faults nm sp pvc).acts = [Act.createPvc d])
    ∨ (∃ n u, (buildCacheStage deps faults nm sp pvc).acts = [Act.deletePvc n u])
    ∨ (∃ q, (buildCacheStage deps faults nm sp pvc).acts = [Act.updatePvc q]) := by
  cases pvc with
  | none =>
    cases hgp : faults.getPvc with
    | true => left; simp [buildCacheStage, hgp, StageRes.acts]
    | false =>
      have hs := createBuildCache_shape deps faults nm sp
      rcases hc : createBuildCache deps faults nm sp with ⟨cacts, cr⟩
      rw [hc] at hs
      simp only [buildCacheStage, hgp, Bool.false_eq_true, if_false, hc]
      cases cr with
      | error e =>
        rcases hs with h1 | ⟨d, h1⟩
        · left; simpa [StageRes.acts] using h1
        · right; left; exact ⟨d, by simpa [StageRes.acts] using h1⟩
      | ok x =>
        rcases hs with h1 | ⟨d, h1⟩
        · left; simpa [StageRes.acts] using h1
        · right; left; exact ⟨d, by simpa [StageRes.acts] using h1⟩
  | some p =>
    cases hgp : faults.getPvc with
    | true => left; simp [buildCacheStage, hgp, StageRes.acts]
    | false =>
      cases hctl : p.controlled with
      | false => left; simp [buildCacheStage, hgp, hctl, StageRes.acts]
      | true =>
        have hs := reconcileBuildCache_shape deps faults nm sp p
        rcases hc : reconcileBuildCache deps faults nm sp p with ⟨racts, rr⟩
        rw [hc] at hs
        simp only [buildCacheStage, hgp, Bool.false_eq_true, if_false, hctl,
          Bool.true_eq_false, hc]
        cases rr with
        | error e =>
          rcases hs with h1 | ⟨n, u, h1⟩ | ⟨q, h1⟩
          · left; simpa [StageRes.acts] using h1
          · right; right; left; exact ⟨n, u, by simpa [StageRes.acts] using h1⟩
          · right; right; right; exact ⟨q, by simpa [StageRes.acts] using h1⟩
        | ok x =>
          rcases hs with h1 | ⟨n, u, h1⟩ | ⟨q, h1⟩
          · left; simpa [StageRes.acts] using h1
          · right; right; left; exact ⟨n, u, by simpa [StageRes.acts] using h1⟩
          · right; right; right; exact ⟨q, by simpa [StageRes.acts] using h1⟩

/-- Calls of the build block, over all outcomes: nothing, one create, or
one update of the Build. -/
theorem buildStage_acts_shape (deps : Deps) (faults : Faults) (nm : String)
    (sp : FunctionBuildSpec) (build : Option KnBuild) :
    (buildStage deps faults nm sp build).acts = []
    ∨ (∃ d, (buildStage deps faults nm sp build).acts = [Act.createBuild d])
    ∨ (∃ q, (buildStage deps faults nm sp build).acts = [Act.updateBuild q]) := by
  cases build with
  | none =>
    cases hgb : faults.getBuild with
    | true => left; simp [buildStage, hgb, StageRes.acts]
    | false =>
      have hs := createBuild_shape deps faults nm sp
      rcases hc : createBuild deps faults nm sp with ⟨cacts, cr⟩
      rw [hc] at hs
      simp only [buildStage, hgb, Bool.false_eq_true, if_false, hc]
      cases cr with
      | error e =>
        rcases hs with h1 | ⟨d, h1⟩
        · left; simpa [StageRes.acts] using h1
        · right; left; exact ⟨d, by simpa [StageRes.acts] using h1⟩
      | ok x =>
        rcases hs with h1 | ⟨d, h1⟩
        · left; simpa [StageRes.acts] using h1
        · right; left; exact ⟨d, by simpa [StageRes.acts] using h1⟩
  | some b0 =>
    cases hgb : faults.getBuild with
    | true => left; simp [buildStage, hgb, StageRes.acts]
    | false =>
      cases hctl : b0.controlled with
      | false => left; simp [buildStage, hgb, hctl, StageRes.acts]
      | true =>
        have hs := reconcileBuild_shape deps faults nm sp b0
        rcases hc : reconcileBuild deps faults nm sp b0 with ⟨racts, rr⟩
        rw [hc] at hs
        simp only [buildStage, hgb, Bool.false_eq_true, if_false, hctl,
          Bool.true_eq_false, hc]
        cases rr with
        | error e =>
          rcases hs with h1 | ⟨q, h1⟩
          · left; simpa [StageRes.acts] using h1
          · right; right; exact ⟨q, by simpa [StageRes.acts] using h1⟩
        | ok x =>
          rcases hs with h1 | ⟨q, h1⟩
          · left; simpa [StageRes.acts] using h1
          · right; right; exact ⟨q, by simpa [StageRes.acts] using h1⟩

/-- A call list of one of the child-write shapes contains no resolver
call and no status write. -/
theorem acts_shape_benign (acts : List Act)
    (hs : acts = []
      ∨ (∃ d, acts = [Act.createPvc d]) ∨ (∃ n u, acts = [Act.deletePvc n u])
      ∨ (∃ q, acts = [Act.updatePvc q]) ∨ (∃ d, acts = [Act.createBuild d])
      ∨ (∃ q, acts = [Act.updateBuild q])) :
    ∀ a ∈ acts, (∀ img, a ≠ Act.resolveCall img) ∧ a.isStatusWrite = false := by
  rcases hs with rfl | ⟨d, rfl⟩ | ⟨n, u, rfl⟩ | ⟨q, rfl⟩ | ⟨d, rfl⟩ | ⟨q, rfl⟩ <;>
    intro a ha <;> simp at ha <;> subst ha <;>
    exact ⟨fun img hem => by simp at hem, rfl⟩

/-- No call of the build-cache block is a resolver call or a status
write. -/
theorem buildCacheStage_acts_benign (deps : Deps) (faults : Faults) (nm : String)
    (sp : FunctionBuildSpec) (pvc : Option PersistentVolumeClaim) :
    ∀ a ∈ (buildCacheStage deps faults nm sp pvc).acts,
      (∀ img, a ≠ Act.resolveCall img) ∧ a.isStatusWrite = false := by
  apply acts_shape_benign
  rcases buildCacheStage_acts_shape deps faults nm sp pvc with h | ⟨d, h⟩ | ⟨n, u, h⟩ | ⟨q, h⟩
  · left; exact h
  · right; left; exact ⟨d, h⟩
  · right; right; left; exact ⟨n, u, h⟩
  · right; right; right; left; exact ⟨q, h⟩

/-- No call of the build block is a resolver call or a status write. -/
theorem buildStage_acts_benign (deps : Deps) (faults : Faults) (nm : String)
    (sp : FunctionBuildSpec) (build : Option KnBuild) :
    ∀ a ∈ (buildStage deps faults nm sp build).acts,
      (∀ img, a ≠ Act.resolveCall img) ∧ a.isStatusWrite = false := by
  apply acts_shape_benign
  rcases buildStage_acts_shape deps faults nm sp build with h | ⟨d, h⟩ | ⟨q, h⟩
  · left; exact h
  · right; right; right; right; left; exact ⟨d, h⟩
  · right; right; right; right; right; exact ⟨q, h⟩

/-- The inner reconcile pass never writes the owner status itself: only
the driver does. -/
theorem reconcile_no_status_write (deps : Deps) (faults : Faults) (w : World)
    (fb fb2 : FunctionBuild) (acts : List Act) (err : Option String)
    (h : reconcile deps faults w fb = (fb2, acts, err)) :
    ∀ a ∈ acts, a.isStatusWrite = false := by
  cases hdel : fb.deleted with
  | true =>
    simp [reconcile, hdel] at h
    obtain ⟨-, h2, -⟩ := h
    subst h2
    intro a ha
    simp at ha
  | false =>
    simp only [reconcile, hdel, Bool.false_eq_true, if_false] at h
    rcases hbc : buildCacheStage deps faults (deps.buildCacheName fb.name) (deps.setDefaults fb.spec) w.pvc with ⟨acts1, bc⟩ | ⟨acts1, e1⟩ | ⟨nm1⟩
    · rw [hbc] at h
      try dsimp only at h
      rcases hbs : buildStage deps faults (deps.buildName fb.name) (deps.setDefaults fb.spec) w.build with ⟨acts2, b⟩ | ⟨acts2, e2⟩ | ⟨nm2⟩
      · rw [hbs] at h
        try dsimp only at h
        cases hr : (afterChildren fb.status.initConds bc b).isReady with
        | true =>
          rw [hr] at h
          try dsimp only at h
          cases hres : deps.resolve (deps.setDefaults fb.spec).image with
          | error e =>
            rw [hres] at h
            try dsimp only at h
            simp at h
            obtain ⟨-, h2, -⟩ := h
            subst h2
            intro a ha
            rcases List.mem_append.mp ha with h3 | h3
            · exact ((buildCacheStage_acts_benign deps faults _ _ w.pvc) a (by rw [hbc]; exact h3)).2
            · rcases List.mem_append.mp h3 with h4 | h4
              · exact ((buildStage_acts_benign deps faults _ _ w.build) a (by rw [hbs]; exact h4)).2
              · simp at h4
                subst h4
                rfl
          | ok dg =>
            rw [hres] at h
            try dsimp only at h
            simp at h
            obtain ⟨-, h2, -⟩ := h
            subst h2
            intro a ha
            rcases List.mem_append.mp ha with h3 | h3
            · exact ((buildCacheStage_acts_benign deps faults _ _ w.pvc) a (by rw [hbc]; exact h3)).2
            · rcases List.mem_append.mp h3 with h4 | h4
              · exact ((buildStage_acts_benign deps faults _ _ w.build) a (by rw [hbs]; exact h4)).2
              · simp at h4
                subst h4
                rfl
        | false =>
          rw [hr] at h
          try dsimp only at h
          simp at h
          obtain ⟨-, h2, -⟩ := h
          subst h2
          intro a ha
          rcases List.mem_append.mp ha with h4 | h4
          · exact ((buildCacheStage_acts_benign deps faults _ _ w.pvc) a (by rw [hbc]; exact h4)).2
          · exact ((buildStage_acts_benign deps faults _ _ w.build) a (by rw [hbs]; exact h4)).2
      · rw [hbs] at h
        try dsimp only at h
        simp at h
        obtain ⟨-, h2, -⟩ := h
        subst h2
        intro a ha
        rcases List.mem_append.mp ha with h4 | h4
        · exact ((buildCacheStage_acts_benign deps faults _ _ w.pvc) a (by rw [hbc]; exact h4)).2
        · exact ((buildStage_acts_benign deps faults _ _ w.build) a (by rw [hbs]; exact h4)).2
      · rw [hbs] at h
        try dsimp only at h
        simp at h
        obtain ⟨-, h2, -⟩ := h
        subst h2
        intro a ha
        exact ((buildCacheStage_acts_benign deps faults _ _ w.pvc) a (by rw [hbc]; exact ha)).2
    · rw [hbc] at h
      try dsimp only at h
      simp at h
      obtain ⟨-, h2, -⟩ := h
      subst h2
      intro a ha
      exact ((buildCacheStage_acts_benign deps faults _ _ w.pvc) a (by rw [hbc]; exact ha)).2
    · rw [hbc] at h
      try dsimp only at h
      simp at h
      obtain ⟨-, h2, -⟩ := h
      subst h2
      intro a ha
      simp at ha

/-- C5: for every key whose owner resource does not exist at fetch time,
Reconcile returns success and performs no creates, updates, or deletes —
not-found on fetch is a benign no-op, never an error. -/
theorem not_found_noop (deps : Deps) (faults : Faults) (w : World)
    (hown : w.owner = none) (hget : faults.getOwner = false) :
    Reconcile deps faults w = ([], none) := by
  simp [Reconcile, hget, hown]

/-- C6: for every owner carrying a deletion timestamp, the cycle succeeds
without child synthesis, condition initialization, or any other
mutation: the inner pass returns the owner unchanged with no calls and
no error, and the driver issues no call and returns success. -/
theorem deleted_noop (deps : Deps) (faults : Faults) (w : World) (fb : FunctionBuild)
    (hown : w.owner = some fb) (hget : faults.getOwner = false)
    (hdel : fb.deleted = true) :
    reconcile deps faults w fb = (fb, [], none) ∧ Reconcile deps faults w = ([], none) := by
  have h1 : reconcile deps faults w fb = (fb, [], none) := by simp [reconcile, hdel]
  exact ⟨h1, by simp [Reconcile, hget, hown, h1]⟩

/-- C3: for an owned child differing from the desired state, one
convergence call copies exactly the owned fields (Spec.Resources and
labels for the build cache; Spec and labels for the build) onto a fresh
copy of the observed object, leaving every other field unchanged, and
issues one update; when the owned fields already semantically match, no
update call is issued. -/
theorem converge_owned_fields (deps : Deps) (faults : Faults) (nm : String)
    (sp : FunctionBuildSpec) (p d : PersistentVolumeClaim) (b db : KnBuild)
    (hmk : deps.makeBuildCache nm sp = Except.ok (some d))
    (hmkb : deps.makeBuild nm sp = Except.ok db) :
    (buildCacheSemanticEquals d p → reconcileBuildCache deps faults nm sp p = ([], Except.ok (some p)))
    ∧ (¬ buildCacheSemanticEquals d p → faults.updatePvc = false →
        ∃ q, reconcileBuildCache deps faults nm sp p = ([Act.updatePvc q], Except.ok (some q))
          ∧ q.resources = d.resources ∧ q.labels = d.labels
          ∧ q.name = p.name ∧ q.uid = p.uid ∧ q.controlled = p.controlled
          ∧ q.specRest = p.specRest ∧ q.metaRest = p.metaRest ∧ q.readyCond = p.readyCond)
    ∧ (buildSemanticEquals db b → reconcileBuild deps faults nm sp b = ([], Except.ok b))
    ∧ (¬ buildSemanticEquals db b → faults.updateBuild = false →
        ∃ q, reconcileBuild deps faults nm sp b = ([Act.updateBuild q], Except.ok q)
          ∧ q.spec = db.spec ∧ q.labels = db.labels
          ∧ q.name = b.name ∧ q.controlled = b.controlled
          ∧ q.metaRest = b.metaRest ∧ q.readyCond = b.readyCond) := by
  refine ⟨?_, ?_, ?_, ?_⟩
  · intro he
    simp [reconcileBuildCache, hmk, he]
  · intro he hf
    exact ⟨{ p with resources := d.resources, labels := d.labels },
      by simp [reconcileBuildCache, hmk, he, hf], rfl, rfl, rfl, rfl, rfl, rfl, rfl, rfl⟩
  · intro he
    simp [reconcileBuild, hmkb, he]
  · intro he hf
    exact ⟨{ b with spec := db.spec, labels := db.labels },
      by simp [reconcileBuild, hmkb, he, hf], rfl, rfl, rfl, rfl, rfl, rfl⟩

/-- C9: whenever the inner reconcile pass fails after having changed the
owner status, the driver still attempts the status write before
returning an error. -/
theorem error_persists_status (deps : Deps) (faults : Faults) (w : World)
    (fb fb2 : FunctionBuild) (acts : List Act) (e : String)
    (hown : w.owner = some fb) (hget : faults.getOwner = false)
    (hrec : reconcile deps faults w fb = (fb2, acts, some e))
    (hne : fb.status ≠ fb2.status) :
    (Reconcile deps faults w).1 = acts ++ [Act.updateStatus fb2.status]
    ∧ (Reconcile deps faults w).2 ≠ none := by
  simp only [Reconcile, hget, Bool.false_eq_true, if_false]
  rw [hown]
  simp only [hrec]
  rw [if_neg hne]
  cases hu : faults.updateStatus <;> simp [hu]

/-- C2: when a child with the canonical name exists but is not
controller-owned by the owner, the cycle mutates nothing (the inner pass
issues no call at all, and the driver issues at most the owner status
write), records a NotOwned condition on the owner status, and fails with
an explicit conflict error. -/
theorem notOwned_conflict (deps : Deps) (faults : Faults) (w : World) (fb : FunctionBuild)
    (p : PersistentVolumeClaim)
    (hown : w.owner = some fb) (hget : faults.getOwner = false) (hdel : fb.deleted = false)
    (hgp : faults.getPvc = false) (hpvc : w.pvc = some p) (hctl : p.controlled = false) :
    (reconcile deps faults w fb).2.1 = []
    ∧ (reconcile deps faults w fb).1.status.buildCacheReady =
        some (notOwnedCond ctBuildCacheReady "PersistentVolumeClaim" (deps.buildCacheName fb.name))
    ∧ (reconcile deps faults w fb).2.2 ≠ none
    ∧ (∀ a ∈ (Reconcile deps faults w).1, a.isStatusWrite = true)
    ∧ (Reconcile deps faults w).2 ≠ none := by
  have hstage : buildCacheStage deps faults (deps.buildCacheName fb.name) (deps.setDefaults fb.spec) w.pvc =
      .notOwned (deps.buildCacheName fb.name) := by
    simp [buildCacheStage, hpvc, hgp, hctl]
  have hrec : reconcile deps faults w fb =
      ({ fb with spec := deps.setDefaults fb.spec, status := (fb.status.initConds).markBuildCacheNotOwned (deps.buildCacheName fb.name) }, [],
        some ("FunctionBuild does not own PersistentVolumeClaim " ++ deps.buildCacheName fb.name)) := by
    simp only [reconcile, hdel, Bool.false_eq_true, if_false]
    rw [hstage]
  refine ⟨by rw [hrec], ?_, by rw [hrec]; simp, ?_, ?_⟩
  · rw [hrec]
    simp [FunctionBuildStatus.markBuildCacheNotOwned, FunctionBuildStatus.recomputeReady]
  · simp only [Reconcile, hget, Bool.false_eq_true, if_false]
    rw [hown]
    simp only [hrec]
    by_cases heq : fb.status = ((fb.status.initConds).markBuildCacheNotOwned (deps.buildCacheName fb.name))
    · rw [if_pos heq]
      intro a ha
      simp at ha
    · rw [if_neg heq]
      cases hu : faults.updateStatus with
      | true =>
        intro a ha
        simp at ha
        subst ha
        rfl
      | false =>
        intro a ha
        simp at ha
        subst ha
        rfl
  · simp only [Reconcile, hget, Bool.false_eq_true, if_false]
    rw [hown]
    simp only [hrec]
    by_cases heq : fb.status = ((fb.status.initConds).markBuildCacheNotOwned (deps.buildCacheName fb.name))
    · rw [if_pos heq]
      simp
    · rw [if_neg heq]
      cases hu : faults.updateStatus <;> simp [hu]

/-- A resolver call can only be issued after both child blocks succeeded
and the aggregated status was Ready: digest resolution is gated on child
readiness. -/
theorem reconcile_resolve_inv (deps : Deps) (faults : Faults) (w : World)
    (fb fb2 : FunctionBuild) (acts : List Act) (err : Option String)
    (h : reconcile deps faults w fb = (fb2, acts, err))
    (img : String) (hmem : Act.resolveCall img ∈ acts) :
    fb.deleted = false ∧ img = (deps.setDefaults fb.spec).image
    ∧ ∃ acts1 bc acts2 b,
        buildCacheStage deps faults (deps.buildCacheName fb.name) (deps.setDefaults fb.spec) w.pvc = .ok acts1 bc
        ∧ buildStage deps faults (deps.buildName fb.name) (deps.setDefaults fb.spec) w.build = .ok acts2 b
        ∧ (afterChildren fb.status.initConds bc b).isReady = true := by
  cases hdel : fb.deleted with
  | true =>
    simp [reconcile, hdel] at h
    obtain ⟨-, h2, -⟩ := h
    subst h2
    simp at hmem
  | false =>
    refine ⟨rfl, ?_⟩
    simp only [reconcile, hdel, Bool.false_eq_true, if_false] at h
    rcases hbc : buildCacheStage deps faults (deps.buildCacheName fb.name) (deps.setDefaults fb.spec) w.pvc with ⟨acts1, bc⟩ | ⟨acts1, e1⟩ | ⟨nm1⟩
    · rw [hbc] at h
      try dsimp only at h
      rcases hbs : buildStage deps faults (deps.buildName fb.name) (deps.setDefaults fb.spec) w.build with ⟨acts2, b⟩ | ⟨acts2, e2⟩ | ⟨nm2⟩
      · rw [hbs] at h
        try dsimp only at h
        cases hr : (afterChildren fb.status.initConds bc b).isReady with
        | true =>
          rw [hr] at h
          try dsimp only at h
          cases hres : deps.resolve (deps.setDefaults fb.spec).image with
          | error e =>
            rw [hres] at h
            try dsimp only at h
            simp at h
            obtain ⟨-, h2, -⟩ := h
            subst h2
            rcases List.mem_append.mp hmem with h3 | h3
            · exact absurd rfl (((buildCacheStage_acts_benign deps faults _ _ w.pvc) _ (by rw [hbc]; exact h3)).1 img)
            · rcases List.mem_append.mp h3 with h4 | h4
              · exact absurd rfl (((buildStage_acts_benign deps faults _ _ w.build) _ (by rw [hbs]; exact h4)).1 img)
              · simp at h4
                exact ⟨h4, acts1, bc, acts2, b, rfl, rfl, hr⟩
          | ok dg =>
            rw [hres] at h
            try dsimp only at h
            simp at h
            obtain ⟨-, h2, -⟩ := h
            subst h2
            rcases List.mem_append.mp hmem with h3 | h3
            · exact absurd rfl (((buildCacheStage_acts_benign deps faults _ _ w.pvc) _ (by rw [hbc]; exact h3)).1 img)
            · rcases List.mem_append.mp h3 with h4 | h4
              · exact absurd rfl (((buildStage_acts_benign deps faults _ _ w.build) _ (by rw [hbs]; exact h4)).1 img)
              · simp at h4
                exact ⟨h4, acts1, bc, acts2, b, rfl, rfl, hr⟩
        | false =>
          rw [hr] at h
          try dsimp only at h
          simp at h
          obtain ⟨-, h2, -⟩ := h
          subst h2
          rcases List.mem_append.mp hmem with h3 | h3
          · exact absurd rfl (((buildCacheStage_acts_benign deps faults _ _ w.pvc) _ (by rw [hbc]; exact h3)).1 img)
          · exact absurd rfl (((buildStage_acts_benign deps faults _ _ w.build) _ (by rw [hbs]; exact h3)).1 img)
      · rw [hbs] at h
        try dsimp only at h
        simp at h
        obtain ⟨-, h2, -⟩ := h
        subst h2
        rcases List.mem_append.mp hmem with h3 | h3
        · exact absurd rfl (((buildCacheStage_acts_benign deps faults _ _ w.pvc) _ (by rw [hbc]; exact h3)).1 img)
        · exact absurd rfl (((buildStage_acts_benign deps faults _ _ w.build) _ (by rw [hbs]; exact h3)).1 img)
      · rw [hbs] at h
        try dsimp only at h
        simp at h
        obtain ⟨-, h2, -⟩ := h
        subst h2
        exact absurd rfl (((buildCacheStage_acts_benign deps faults _ _ w.pvc) _ (by rw [hbc]; exact hmem)).1 img)
    · rw [hbc] at h
      try dsimp only at h
      simp at h
      obtain ⟨-, h2, -⟩ := h
      subst h2
      exact absurd rfl (((buildCacheStage_acts_benign deps faults _ _ w.pvc) _ (by rw [hbc]; exact hmem)).1 img)
    · rw [hbc] at h
      try dsimp only at h
      simp at h
      obtain ⟨-, h2, -⟩ := h
      subst h2
      simp at hmem

/-- C7: digest resolution is invoked only in cycles where both required
children converged and the aggregated status is Ready; on success the
resolved digest is stored in the owner status LatestImage; on failure an
ImageMissing condition is marked and the cycle returns the resolution
error. -/
theorem digest_resolution_gate (deps : Deps) (faults : Faults) (w : World) (fb : FunctionBuild) :
    (∀ img fb2 acts err, reconcile deps faults w fb = (fb2, acts, err) →
      Act.resolveCall img ∈ acts →
      fb.deleted = false ∧ img = (deps.setDefaults fb.spec).image
      ∧ ∃ acts1 bc acts2 b,
          buildCacheStage deps faults (deps.buildCacheName fb.name) (deps.setDefaults fb.spec) w.pvc = .ok acts1 bc
          ∧ buildStage deps faults (deps.buildName fb.name) (deps.setDefaults fb.spec) w.build = .ok acts2 b
          ∧ (afterChildren fb.status.initConds bc b).isReady = true)
    ∧ (∀ acts1 bc acts2 b dg, fb.deleted = false →
        buildCacheStage deps faults (deps.buildCacheName fb.name) (deps.setDefaults fb.spec) w.pvc = .ok acts1 bc →
        buildStage deps faults (deps.buildName fb.name) (deps.setDefaults fb.spec) w.build = .ok acts2 b →
        (afterChildren fb.status.initConds bc b).isReady = true →
        deps.resolve (deps.setDefaults fb.spec).image = Except.ok dg →
        (reconcile deps faults w fb).1.status.latestImage = dg
        ∧ (reconcile deps faults w fb).2.2 = none
        ∧ Act.resolveCall ((deps.setDefaults fb.spec).image) ∈ (reconcile deps faults w fb).2.1)
    ∧ (∀ acts1 bc acts2 b e, fb.deleted = false →
        buildCacheStage deps faults (deps.buildCacheName fb.name) (deps.setDefaults fb.spec) w.pvc = .ok acts1 bc →
        buildStage deps faults (deps.buildName fb.name) (deps.setDefaults fb.spec) w.build = .ok acts2 b →
        (afterChildren fb.status.initConds bc b).isReady = true →
        deps.resolve (deps.setDefaults fb.spec).image = Except.error e →
        (∃ c, (reconcile deps faults w fb).1.status.buildSucceeded = some c ∧ c.reason = "ImageMissing")
        ∧ (reconcile deps faults w fb).2.2 = some e) := by
  refine ⟨?_, ?_, ?_⟩
  · intro img fb2 acts err h hmem
    exact reconcile_resolve_inv deps faults w fb fb2 acts err h img hmem
  · intro acts1 bc acts2 b dg hdel hbc hbs hr hres
    refine ⟨?_, ?_, ?_⟩ <;>
      simp [reconcile, hdel, hbc, hbs, hr, hres]
  · intro acts1 bc acts2 b e hdel hbc hbs hr hres
    constructor
    · refine ⟨{ ctype := ctBuildSucceeded, status := CStatus.cfalse, reason := "ImageMissing", message := "Unable to fetch image " ++ (deps.setDefaults fb.spec).image ++ ": " ++ e }, ?_, rfl⟩
      simp [reconcile, hdel, hbc, hbs, hr, hres,
        FunctionBuildStatus.markImageMissing, FunctionBuildStatus.recomputeReady]
    · simp [reconcile, hdel, hbc, hbs, hr, hres]

/-- Applying a concatenation of call sequences composes. -/
theorem applyActs_append (w : World) (l1 l2 : List Act) :
    applyActs w (l1 ++ l2) = applyActs (applyActs w l1) l2 :=
  List.foldl_append applyAct w l1 l2

/-- The world effect of a successful build-cache block: the
PersistentVolumeClaim slot now holds the returned canonical child;
nothing else is touched. -/
theorem buildCacheStage_apply (deps : Deps) (faults : Faults) (nm : String)
    (sp : FunctionBuildSpec) (pvc : Option PersistentVolumeClaim) (acts1 : List Act)
    (bc : Option PersistentVolumeClaim)
    (h : buildCacheStage deps faults nm sp pvc = .ok acts1 bc)
    (w' : World) (hw : w'.pvc = pvc) :
    applyActs w' acts1 = { w' with pvc := bc } := by
  obtain ⟨-, hinv⟩ := buildCacheStage_ok_inv deps faults nm sp pvc acts1 bc h
  obtain ⟨wo, wp, wb⟩ := w'
  simp only [] at hw
  subst hw
  rcases hinv with ⟨hp, -, rfl, rfl⟩ | ⟨d, hp, -, -, rfl, rfl⟩ | ⟨p, hp, -, -, -, rfl, rfl⟩
    | ⟨p, d, hp, -, -, -, rfl, rfl⟩ | ⟨p, d, hp, -, -, -, -, rfl, rfl⟩ <;>
    rw [hp] <;> simp [applyActs, applyAct]

/-- The world effect of a successful build block: the Build slot now
holds the returned canonical child; nothing else is touched. -/
theorem buildStage_apply (deps : Deps) (faults : Faults) (nm : String)
    (sp : FunctionBuildSpec) (build : Option KnBuild) (acts2 : List Act) (b : KnBuild)
    (h : buildStage deps faults nm sp build = .ok acts2 b)
    (w' : World) (hw : w'.build = build) :
    applyActs w' acts2 = { w' with build := some b } := by
  obtain ⟨-, hinv⟩ := buildStage_ok_inv deps faults nm sp build acts2 b h
  obtain ⟨wo, wp, wb⟩ := w'
  simp only [] at hw
  subst hw
  rcases hinv with ⟨hp, -, -, rfl⟩ | ⟨d, hp, -, -, -, rfl⟩ | ⟨b0, d, hp, -, -, -, -, rfl, rfl⟩ <;>
    rw [hp] <;> simp [applyActs, applyAct]

/-- The semantic-equality predicates are reflexive. -/
theorem buildCacheSemanticEquals_refl (d : PersistentVolumeClaim) :
    buildCacheSemanticEquals d d := ⟨rfl, rfl⟩

/-- The build semantic-equality predicate is reflexive. -/
theorem buildSemanticEquals_refl (d : KnBuild) : buildSemanticEquals d d := ⟨rfl, rfl⟩

/-- A second run of the build-cache block on the child it returned
converges without issuing any call, provided desired children carry the
controller owner reference. -/
theorem buildCacheStage_stable (deps : Deps) (nm : String) (sp : FunctionBuildSpec)
    (pvc : Option PersistentVolumeClaim) (acts1 : List Act) (bc : Option PersistentVolumeClaim)
    (hmkc : ∀ d, deps.makeBuildCache nm sp = Except.ok (some d) → d.controlled = true)
    (h : buildCacheStage deps noFaults nm sp pvc = .ok acts1 bc) :
    buildCacheStage deps noFaults nm sp bc = .ok [] bc := by
  obtain ⟨-, hinv⟩ := buildCacheStage_ok_inv deps noFaults nm sp pvc acts1 bc h
  rcases hinv with ⟨hp, hmk, -, rfl⟩ | ⟨d, hp, hmk, -, -, rfl⟩ | ⟨p, hp, hctl, hmk, -, -, rfl⟩
    | ⟨p, d, hp, hctl, hmk, he, -, rfl⟩ | ⟨p, d, hp, hctl, hmk, he, -, -, rfl⟩
  · simp [buildCacheStage, createBuildCache, hmk, noFaults]
  · have hc := hmkc d hmk
    simp [buildCacheStage, reconcileBuildCache, hmk, hc, noFaults,
      buildCacheSemanticEquals_refl]
  · simp [buildCacheStage, createBuildCache, hmk, noFaults]
  · simp [buildCacheStage, reconcileBuildCache, hmk, hctl, he, noFaults]
  · have he2 : buildCacheSemanticEquals d { name := p.name, uid := p.uid, controlled := true, resources := d.resources, labels := d.labels, specRest := p.specRest, metaRest := p.metaRest, readyCond := p.readyCond } :=
      ⟨rfl, rfl⟩
    simp [buildCacheStage, reconcileBuildCache, hmk, hctl, he2, noFaults]

/-- A second run of the build block on the child it returned converges
without issuing any call, provided desired children carry the controller
owner reference. -/
theorem buildStage_stable (deps : Deps) (nm : String) (sp : FunctionBuildSpec)
    (build : Option KnBuild) (acts2 : List Act) (b : KnBuild)
    (hmkb : ∀ d, deps.makeBuild nm sp = Except.ok d → d.controlled = true)
    (h : buildStage deps noFaults nm sp build = .ok acts2 b) :
    buildStage deps noFaults nm sp (some b) = .ok [] b := by
  obtain ⟨-, hinv⟩ := buildStage_ok_inv deps noFaults nm sp build acts2 b h
  rcases hinv with ⟨hp, hmk, -, rfl⟩ | ⟨d, hp, hctl, hmk, he, rfl⟩ | ⟨b0, d, hp, hctl, hmk, he, -, rfl, rfl⟩
  · have hc := hmkb b hmk
    simp [buildStage, reconcileBuild, hmk, hc, noFaults, buildSemanticEquals_refl]
  · simp [buildStage, reconcileBuild, hmk, hctl, he, noFaults]
  · have he2 : buildSemanticEquals d { name := b0.name, controlled := true, spec := d.spec, labels := d.labels, metaRest := b0.metaRest, readyCond := b0.readyCond } := ⟨rfl, rfl⟩
    simp [buildStage, reconcileBuild, hmk, hctl, he2, noFaults]

/-- InitializeConditions is the identity once every tracked condition is
declared. -/
theorem initConds_skip (s : FunctionBuildStatus)
    (h1 : ∃ c, s.buildCacheReady = some c) (h2 : ∃ c, s.buildSucceeded = some c)
    (h3 : ∃ c, s.ready = some c) : s.initConds = s := by
  obtain ⟨c1, e1⟩ := h1
  obtain ⟨c2, e2⟩ := h2
  obtain ⟨c3, e3⟩ := h3
  cases s
  simp only [] at e1 e2 e3
  subst e1; subst e2; subst e3
  simp [FunctionBuildStatus.initConds]

/-- The child-propagation pipeline declares every tracked condition. -/
theorem afterChildren_conds_some (s : FunctionBuildStatus)
    (bc : Option PersistentVolumeClaim) (b : KnBuild) :
    (∃ c, (afterChildren s bc b).buildCacheReady = some c)
    ∧ (∃ c, (afterChildren s bc b).buildSucceeded = some c)
    ∧ (∃ c, (afterChildren s bc b).ready = some c) := by
  cases bc <;>
    simp [afterChildren, FunctionBuildStatus.markBuildCacheNotUsed,
      FunctionBuildStatus.propagateBuildCacheStatus, FunctionBuildStatus.propagateBuildStatus,
      FunctionBuildStatus.recomputeReady]

/-- The child-propagation pipeline neither reads nor writes LatestImage
and ObservedGeneration. -/
theorem afterChildren_untouched (s : FunctionBuildStatus)
    (bc : Option PersistentVolumeClaim) (b : KnBuild) (li : String) (og : Nat) :
    afterChildren { s with latestImage := li, observedGeneration := og } bc b
      = { afterChildren s bc b with latestImage := li, observedGeneration := og } := by
  cases s
  cases bc <;> rfl

/-- Propagating the same observed children twice yields the same status
as propagating them once. -/
theorem afterChildren_idem (s : FunctionBuildStatus)
    (bc : Option PersistentVolumeClaim) (b : KnBuild) :
    afterChildren (afterChildren s bc b) bc b = afterChildren s bc b := by
  cases s
  cases bc <;> rfl

/-- After a fault-free successful inner pass whose calls were applied to
the cluster and whose status was persisted on the owner, a second driver
run issues no write (at most the benign resolver re-check) and
succeeds. -/
theorem second_run_noop (deps : Deps) (w : World) (fb fb2 : FunctionBuild) (acts0 : List Act)
    (hmkc : ∀ nm sp d, deps.makeBuildCache nm sp = Except.ok (some d) → d.controlled = true)
    (hmkb : ∀ nm sp d, deps.makeBuild nm sp = Except.ok d → d.controlled = true)
    (hrec : reconcile deps noFaults w fb = (fb2, acts0, none))
    (w1 : World) (fb' : FunctionBuild)
    (hown1 : w1.owner = some fb')
    (hpvc1 : w1.pvc = (applyActs w acts0).pvc)
    (hbuild1 : w1.build = (applyActs w acts0).build)
    (hname : fb'.name = fb.name) (hgen : fb'.generation = fb.generation)
    (hdel' : fb'.deleted = fb.deleted) (hspec : fb'.spec = fb.spec)
    (hstatus : fb'.status = fb2.status) :
    Reconcile deps noFaults w1 = ([], none)
    ∨ (∃ img, Reconcile deps noFaults w1 = ([Act.resolveCall img], none)) := by
  cases hdel : fb.deleted with
  | true =>
    have hre : reconcile deps noFaults w fb = (fb, [], none) := by simp [reconcile, hdel]
    have hcomb := hre.symm.trans hrec
    have h1 : fb = fb2 := congrArg Prod.fst hcomb
    have h2 : ([] : List Act) = acts0 := congrArg (fun t => t.2.1) hcomb
    subst h1
    subst h2
    left
    have hdel2 : fb'.deleted = true := by rw [hdel', hdel]
    have hr2 : reconcile deps noFaults w1 fb' = (fb', [], none) := by simp [reconcile, hdel2]
    simp [Reconcile, show noFaults.getOwner = false from rfl, hown1, hr2]
  | false =>
    simp only [reconcile, hdel, Bool.false_eq_true, if_false] at hrec
    rcases hbc : buildCacheStage deps noFaults (deps.buildCacheName fb.name) (deps.setDefaults fb.spec) w.pvc with ⟨acts1, bc⟩ | ⟨acts1, e1⟩ | ⟨nm1⟩
    · rw [hbc] at hrec
      try dsimp only at hrec
      rcases hbs : buildStage deps noFaults (deps.buildName fb.name) (deps.setDefaults fb.spec) w.build with ⟨acts2, b⟩ | ⟨acts2, e2⟩ | ⟨nm2⟩
      · rw [hbs] at hrec
        try dsimp only at hrec
        have hst1 : buildCacheStage deps noFaults (deps.buildCacheName fb.name) (deps.setDefaults fb.spec) bc = .ok [] bc :=
          buildCacheStage_stable deps _ _ _ _ _ (fun d hd => hmkc _ _ d hd) hbc
        have hst2 : buildStage deps noFaults (deps.buildName fb.name) (deps.setDefaults fb.spec) (some b) = .ok [] b :=
          buildStage_stable deps _ _ _ _ _ (fun d hd => hmkb _ _ d hd) hbs
        have ha1 : applyActs w acts1 = { w with pvc := bc } :=
          buildCacheStage_apply deps noFaults _ _ _ _ _ hbc w rfl
        have ha2 : applyActs { w with pvc := bc } acts2 = { w with pvc := bc, build := some b } :=
          buildStage_apply deps noFaults _ _ _ _ _ hbs { w with pvc := bc } rfl
        have hdel2 : fb'.deleted = false := by rw [hdel', hdel]
        cases hr : (afterChildren fb.status.initConds bc b).isReady with
        | true =>
          rw [if_pos hr] at hrec
          cases hres : deps.resolve (deps.setDefaults fb.spec).image with
          | error e =>
            rw [hres] at hrec
            try dsimp only at hrec
            exact absurd (congrArg (fun t => t.2.2) hrec) (by simp)
          | ok dg =>
            rw [hres] at hrec
            try dsimp only at hrec
            have h1 := congrArg Prod.fst hrec
            have h2 := congrArg (fun t => t.2.1) hrec
            try simp only [] at h1 h2
            subst h1
            subst h2
            have hw0 : (applyActs w (acts1 ++ acts2 ++ [Act.resolveCall (deps.setDefaults fb.spec).image])) = { w with pvc := bc, build := some b } := by
              rw [applyActs_append, applyActs_append, ha1, ha2]
              rfl
            have hpvc1' : w1.pvc = bc := by rw [hpvc1, hw0]
            have hbuild1' : w1.build = some b := by rw [hbuild1, hw0]
            have hS : fb'.status = { afterChildren fb.status.initConds bc b with latestImage := dg, observedGeneration := fb.generation } := by
              rw [hstatus]
            have hinit : fb'.status.initConds = fb'.status := by
              apply initConds_skip
              · obtain ⟨c, hc⟩ := (afterChildren_conds_some fb.status.initConds bc b).1
                exact ⟨c, by rw [hS]; exact hc⟩
              · obtain ⟨c, hc⟩ := (afterChildren_conds_some fb.status.initConds bc b).2.1
                exact ⟨c, by rw [hS]; exact hc⟩
              · obtain ⟨c, hc⟩ := (afterChildren_conds_some fb.status.initConds bc b).2.2
                exact ⟨c, by rw [hS]; exact hc⟩
            have hafter : afterChildren fb'.status bc b = fb'.status := by
              rw [hS, afterChildren_untouched, afterChildren_idem]
            have hisr : fb'.status.isReady = true := by
              rw [hS]
              exact hr
            have hfix : { fb'.status with latestImage := dg, observedGeneration := fb'.generation } = fb'.status := by
              rw [hgen, hS]
            have hrun2 : reconcile deps noFaults w1 fb' =
                ({ fb' with spec := deps.setDefaults fb.spec, status := fb'.status }, [Act.resolveCall (deps.setDefaults fb.spec).image], none) := by
              simp only [reconcile, hdel2, Bool.false_eq_true, if_false, hname, hspec,
                hpvc1', hbuild1', hst1, hst2]
              try dsimp only
              simp only [hinit, hafter, hisr, if_true, hres]
              try dsimp only
              rw [hfix]
              simp
            right
            refine ⟨(deps.setDefaults fb.spec).image, ?_⟩
            simp only [Reconcile, show noFaults.getOwner = false from rfl,
              Bool.false_eq_true, if_false]
            rw [hown1]
            simp only [hrun2]
            simp
        | false =>
          rw [if_neg (show ¬((afterChildren fb.status.initConds bc b).isReady = true) by simp [hr])] at hrec
          have h1 := congrArg Prod.fst hrec
          have h2 := congrArg (fun t => t.2.1) hrec
          try simp only [] at h1 h2
          subst h1
          subst h2
          have hw0 : (applyActs w (acts1 ++ acts2)) = { w with pvc := bc, build := some b } := by
            rw [applyActs_append, ha1, ha2]
          have hpvc1' : w1.pvc = bc := by rw [hpvc1, hw0]
          have hbuild1' : w1.build = some b := by rw [hbuild1, hw0]
          have hS : fb'.status = { afterChildren fb.status.initConds bc b with latestImage := (afterChildren fb.status.initConds bc b).latestImage, observedGeneration := fb.generation } := by
            rw [hstatus]
          have hinit : fb'.status.initConds = fb'.status := by
            apply initConds_skip
            · obtain ⟨c, hc⟩ := (afterChildren_conds_some fb.status.initConds bc b).1
              exact ⟨c, by rw [hS]; exact hc⟩
            · obtain ⟨c, hc⟩ := (afterChildren_conds_some fb.status.initConds bc b).2.1
              exact ⟨c, by rw [hS]; exact hc⟩
            · obtain ⟨c, hc⟩ := (afterChildren_conds_some fb.status.initConds bc b).2.2
              exact ⟨c, by rw [hS]; exact hc⟩
          have hafter : afterChildren fb'.status bc b = fb'.status := by
            rw [hS, afterChildren_untouched, afterChildren_idem]
          have hisr : fb'.status.isReady = false := by
            rw [hS]
            exact hr
          have hfix : { fb'.status with observedGeneration := fb'.generation } = fb'.status := by
            rw [hgen, hS]
          have hrun2 : reconcile deps noFaults w1 fb' =
              ({ fb' with spec := deps.setDefaults fb.spec, status := fb'.status }, [], none) := by
            simp only [reconcile, hdel2, Bool.false_eq_true, if_false, hname, hspec,
              hpvc1', hbuild1', hst1, hst2]
            try dsimp only
            simp only [hinit, hafter, hisr, Bool.false_eq_true, if_false]
            try dsimp only
            rw [hfix]
            simp
          left
          simp only [Reconcile, show noFaults.getOwner = false from rfl,
            Bool.false_eq_true, if_false]
          rw [hown1]
          simp only [hrun2]
          simp
      · rw [hbs] at hrec
        try dsimp only at hrec
        exact absurd (congrArg (fun t => t.2.2) hrec) (by simp)
      · rw [hbs] at hrec
        try dsimp only at hrec
        exact absurd (congrArg (fun t => t.2.2) hrec) (by simp)
    · rw [hbc] at hrec
      try dsimp only at hrec
      exact absurd (congrArg (fun t => t.2.2) hrec) (by simp)
    · rw [hbc] at hrec
      try dsimp only at hrec
      exact absurd (congrArg (fun t => t.2.2) hrec) (by simp)

/-- Child writes and resolver calls never change the owner slot. -/
theorem applyActs_owner (acts : List Act) :
    ∀ w : World, (∀ a ∈ acts, a.isStatusWrite = false) → (applyActs w acts).owner = w.owner := by
  induction acts with
  | nil => intro w _; rfl
  | cons a rest ih =>
    intro w h
    have ha := h a (List.mem_cons_self a rest)
    have hrest : ∀ a' ∈ rest, a'.isStatusWrite = false :=
      fun a' h' => h a' (List.mem_cons_of_mem a h')
    have hstep : applyActs w (a :: rest) = applyActs (applyAct w a) rest := rfl
    rw [hstep, ih (applyAct w a) hrest]
    cases a <;> first
      | rfl
      | simp [Act.isStatusWrite] at ha

/-- C4: a status write is issued iff the freshly computed status differs
from the originally fetched status under deep structural equality (when
equal, the driver returns the inner outcome with no extra call), and a
second fault-free Reconcile on the resulting cluster state issues zero
further writes and succeeds. -/
theorem status_write_iff_and_idempotent (deps : Deps) :
    (∀ faults w fb fb2 acts0 err, w.owner = some fb → faults.getOwner = false →
      reconcile deps faults w fb = (fb2, acts0, err) →
      (((∃ s, Act.updateStatus s ∈ (Reconcile deps faults w).1) ↔ fb2.status ≠ fb.status)
       ∧ (fb2.status = fb.status → Reconcile deps faults w = (acts0, err))))
    ∧ (∀ w acts,
        (∀ nm sp d, deps.makeBuildCache nm sp = Except.ok (some d) → d.controlled = true) →
        (∀ nm sp d, deps.makeBuild nm sp = Except.ok d → d.controlled = true) →
        Reconcile deps noFaults w = (acts, none) →
        (Reconcile deps noFaults (applyActs w acts)).1.filter Act.isWrite = []
        ∧ (Reconcile deps noFaults (applyActs w acts)).2 = none) := by
  constructor
  · intro faults w fb fb2 acts0 err hown hget hrec
    have hdrv : Reconcile deps faults w =
        (if fb.status = fb2.status then (acts0, err)
         else if faults.updateStatus then (acts0 ++ [Act.updateStatus fb2.status], some "failed to update FunctionBuild status")
         else (acts0 ++ [Act.updateStatus fb2.status], err)) := by
      simp only [Reconcile, hget, Bool.false_eq_true, if_false]
      rw [hown]
      try dsimp only
      rw [hrec]
    by_cases heq : fb.status = fb2.status
    · rw [hdrv, if_pos heq]
      constructor
      · constructor
        · rintro ⟨s, hs⟩
          have hb := reconcile_no_status_write deps faults w fb fb2 acts0 err hrec _ hs
          simp [Act.isStatusWrite] at hb
        · intro hne
          exact absurd heq.symm hne
      · intro _
        rfl
    · rw [hdrv, if_neg heq]
      constructor
      · constructor
        · intro _
          exact fun hc => heq hc.symm
        · intro _
          refine ⟨fb2.status, ?_⟩
          cases faults.updateStatus <;> simp
      · intro heq2
        exact absurd heq2.symm heq
  · intro w acts hmkc hmkb h
    cases hown : w.owner with
    | none =>
      have h0 : Reconcile deps noFaults w = ([], none) := by
        simp [Reconcile, show noFaults.getOwner = false from rfl, hown]
      rw [h0] at h
      have h1 : ([] : List Act) = acts := congrArg Prod.fst h
      have h2 : applyActs w acts = w := by rw [← h1]; rfl
      rw [h2, h0]
      exact ⟨rfl, rfl⟩
    | some fb =>
      simp only [Reconcile, show noFaults.getOwner = false from rfl, Bool.false_eq_true, if_false] at h
      rw [hown] at h
      try dsimp only at h
      rcases hrec : reconcile deps noFaults w fb with ⟨fb2, acts0, err0⟩
      rw [hrec] at h
      try dsimp only at h
      have hbenign : ∀ a ∈ acts0, a.isStatusWrite = false :=
        reconcile_no_status_write deps noFaults w fb fb2 acts0 err0 hrec
      by_cases heq : fb.status = fb2.status
      · rw [if_pos heq] at h
        have h1 : acts0 = acts := congrArg Prod.fst h
        have h2 : err0 = none := congrArg Prod.snd h
        subst h2
        have hown1 : (applyActs w acts0).owner = some fb := by
          rw [applyActs_owner acts0 w hbenign, hown]
        have hsr := second_run_noop deps w fb fb2 acts0 hmkc hmkb hrec
          (applyActs w acts0) fb hown1 rfl rfl rfl rfl rfl rfl heq
        rw [← h1]
        rcases hsr with hfin | ⟨img, hfin⟩ <;> rw [hfin] <;> exact ⟨rfl, rfl⟩
      · rw [if_neg heq] at h
        rw [if_neg (show ¬(noFaults.updateStatus = true) by decide)] at h
        have h1 : acts0 ++ [Act.updateStatus fb2.status] = acts := congrArg Prod.fst h
        have h2 : err0 = none := congrArg Prod.snd h
        subst h2
        have hown0 : (applyActs w acts0).owner = some fb := by
          rw [applyActs_owner acts0 w hbenign, hown]
        have hw1 : applyActs w (acts0 ++ [Act.updateStatus fb2.status])
            = { applyActs w acts0 with owner := (applyActs w acts0).owner.map (fun o => { o with status := fb2.status }) } := by
          rw [applyActs_append]
          rfl
        have hown1 : (applyActs w (acts0 ++ [Act.updateStatus fb2.status])).owner
            = some { fb with status := fb2.status } := by
          rw [hw1]
          simp [hown0]
        have hpvc1 : (applyActs w (acts0 ++ [Act.updateStatus fb2.status])).pvc
            = (applyActs w acts0).pvc := by
          rw [hw1]
        have hbuild1 : (applyActs w (acts0 ++ [Act.updateStatus fb2.status])).build
            = (applyActs w acts0).build := by
          rw [hw1]
        have hsr := second_run_noop deps w fb fb2 acts0 hmkc hmkb hrec
          (applyActs w (acts0 ++ [Act.updateStatus fb2.status]))
          { fb with status := fb2.status }
          hown1 hpvc1 hbuild1 rfl rfl rfl rfl rfl
        rw [← h1]
        rcases hsr with hfin | ⟨img, hfin⟩ <;> rw [hfin] <;> exact ⟨rfl, rfl⟩

/-- A child object of the deployer controller (a Knative Configuration
or Route): its name and the owner-managed spec content. -/
structure ChildObj where
  name : String
  spec : String
deriving DecidableEq

/-- A client call of the deployer child synchronizer. -/
inductive DAct where
  | create (c : ChildObj)
  | update (c : ChildObj)
  | delete (name : String)
deriving DecidableEq

/-- Modelled from the spec: the extras-cleanup loop of the generic child
synchronizer (the deployer controller source is not among the available
sources; behavior fixed by spec section 4.3 step 6 and the deployer
table test). Extras are deleted in list order; the first failed delete
aborts the loop and surfaces the error; completed deletions are not
rolled back. -/
def cleanupExtras (deleteFails : String → Bool) : List ChildObj → List DAct × Option String
  | [] => ([], none)
  | c :: rest =>
    if deleteFails c.name then
      ([DAct.delete c.name], some ("failed to delete " ++ c.name))
    else
      match cleanupExtras deleteFails rest with
      | (as, e) => (DAct.delete c.name :: as, e)

/-- Modelled from the spec: one convergence pass of the deployer child
synchronizer for one child kind (spec section 4.3 and the deployer table
test): with exactly one owned child, converge it in place (update only
when the owned spec differs); otherwise delete every listed owned child
as an extra (aborting on the first failed delete) and then create the
missing desired child. -/
def syncDesired (desired : ChildObj) (owned : List ChildObj) (deleteFails : String → Bool) :
    List DAct × Option String :=
  match owned with
  | [c] =>
    if c.spec = desired.spec then ([], none)
    else ([DAct.update { c with spec := desired.spec }], none)
  | extras =>
    match cleanupExtras deleteFails extras with
    | (as, some e) => (as, some e)
    | (as, none) => (as ++ [DAct.create desired], none)

/-- C8: with one desired child and two extra owned children, one cycle
deletes exactly the two extras and creates at most the missing desired
child; if deleting the first extra fails, the second extra is not
attempted and the error is returned; if the second delete fails, the
first deletion stands (no rollback call is issued) and the error is
returned. -/
theorem extras_cleanup (desired e1 e2 : ChildObj) (deleteFails : String → Bool) :
    (deleteFails e1.name = false → deleteFails e2.name = false →
      syncDesired desired [e1, e2] deleteFails
        = ([DAct.delete e1.name, DAct.delete e2.name, DAct.create desired], none))
    ∧ (deleteFails e1.name = true →
      syncDesired desired [e1, e2] deleteFails
        = ([DAct.delete e1.name], some ("failed to delete " ++ e1.name)))
    ∧ (deleteFails e1.name = false → deleteFails e2.name = true →
      syncDesired desired [e1, e2] deleteFails
        = ([DAct.delete e1.name, DAct.delete e2.name], some ("failed to delete " ++ e2.name))
      ∧ ∀ c, DAct.create c ∉ (syncDesired desired [e1, e2] deleteFails).1) := by
  refine ⟨?_, ?_, ?_⟩
  · intro h1 h2
    simp [syncDesired, cleanupExtras, h1, h2]
  · intro h1
    simp [syncDesired, cleanupExtras, h1]
  · intro h1 h2
    have he : syncDesired desired [e1, e2] deleteFails
        = ([DAct.delete e1.name, DAct.delete e2.name], some ("failed to delete " ++ e2.name)) := by
      simp [syncDesired, cleanupExtras, h1, h2]
    refine ⟨he, ?_⟩
    intro c hc
    rw [he] at hc
    simp at hc

/-- Example desired build cache used by the concrete witnesses. -/
def exPvc : PersistentVolumeClaim :=
  { name := "fb1-build-cache", uid := 1, controlled := true, resources := "1Gi",
    labels := [("app", "fb1")], specRest := "", metaRest := "",
    readyCond := some { ctype := "Ready", status := CStatus.ctrue, reason := "", message := "" } }

/-- Example desired build used by the concrete witnesses. -/
def exBuild : KnBuild :=
  { name := "fb1-build", controlled := true, spec := "bspec", labels := [("app", "fb1")],
    metaRest := "",
    readyCond := some { ctype := "Succeeded", status := CStatus.ctrue, reason := "", message := "" } }

/-- Example injected collaborators used by the concrete witnesses. -/
def exDeps : Deps :=
  { setDefaults := fun sp => sp,
    buildCacheName := fun n => n ++ "-build-cache",
    buildName := fun n => n ++ "-build",
    makeBuildCache := fun _ _ => Except.ok (some exPvc),
    makeBuild := fun _ _ => Except.ok exBuild,
    resolve := fun i => Except.ok (i ++ "@sha256:abc") }

/-- Example freshly created owner status. -/
def exStatus : FunctionBuildStatus :=
  { buildCacheReady := none, buildSucceeded := none, ready := none,
    buildCacheName := "", buildName := "", latestImage := "", observedGeneration := 0 }

/-- Example owner used by the concrete witnesses. -/
def exFb : FunctionBuild :=
  { name := "fb1", generation := 1, deleted := false,
    spec := { image := "img", rest := "" }, status := exStatus }

/-- Example cluster state with the owner and no children yet. -/
def exWorld : World := { owner := some exFb, pvc := none, build := none }

/-- A PersistentVolumeClaim with the canonical name but no controller
owner reference. -/
def exPvcForeign : PersistentVolumeClaim :=
  { name := "fb1-build-cache", uid := 9, controlled := false, resources := "1Gi",
    labels := [], specRest := "", metaRest := "", readyCond := none }

/-- Example cluster state with a foreign child under the canonical
name. -/
def exWorld2 : World := { owner := some exFb, pvc := some exPvcForeign, build := none }

/-- A stale owned build cache differing from the desired one only in the
owned resources field. -/
def exPvcStale : PersistentVolumeClaim :=
  { name := "fb1-build-cache", uid := 7, controlled := true, resources := "2Gi",
    labels := [("app", "fb1")], specRest := "sr", metaRest := "mr", readyCond := none }

/-- Example deleted owner. -/
def exFbDel : FunctionBuild :=
  { name := "fb1", generation := 1, deleted := true,
    spec := { image := "img", rest := "" }, status := exStatus }

/-- Example cluster state holding the deleted owner. -/
def exWorld3 : World := { owner := some exFbDel, pvc := none, build := none }

/-- Witness for C5: reconciling a key with no owner is a successful
no-op. -/
theorem not_found_noop_witness :
    Reconcile exDeps noFaults { owner := none, pvc := none, build := none } = ([], none) :=
  not_found_noop exDeps noFaults { owner := none, pvc := none, build := none } rfl rfl

/-- Witness for C6: reconciling a deleted owner is a successful no-op. -/
theorem deleted_noop_witness :
    reconcile exDeps noFaults exWorld3 exFbDel = (exFbDel, [], none)
    ∧ Reconcile exDeps noFaults exWorld3 = ([], none) :=
  deleted_noop exDeps noFaults exWorld3 exFbDel rfl rfl rfl

/-- Witness for C3: converging a stale build cache issues one update that
copies only the owned fields. -/
theorem converge_owned_fields_witness :
    ∃ q, reconcileBuildCache exDeps noFaults "fb1-build-cache" exFb.spec exPvcStale
        = ([Act.updatePvc q], Except.ok (some q))
      ∧ q.resources = exPvc.resources ∧ q.labels = exPvc.labels
      ∧ q.name = exPvcStale.name ∧ q.uid = exPvcStale.uid ∧ q.controlled = exPvcStale.controlled
      ∧ q.specRest = exPvcStale.specRest ∧ q.metaRest = exPvcStale.metaRest
      ∧ q.readyCond = exPvcStale.readyCond :=
  (converge_owned_fields exDeps noFaults "fb1-build-cache" exFb.spec exPvcStale exPvc exBuild exBuild rfl rfl).2.1
    (by decide) rfl

/-- Witness for C9: a conflict error still triggers the status write
attempt before the error is surfaced. -/
theorem error_persists_status_witness :
    (Reconcile exDeps noFaults exWorld2).1
        = (reconcile exDeps noFaults exWorld2 exFb).2.1
          ++ [Act.updateStatus (reconcile exDeps noFaults exWorld2 exFb).1.status]
    ∧ (Reconcile exDeps noFaults exWorld2).2 ≠ none :=
  error_persists_status exDeps noFaults exWorld2 exFb
    (reconcile exDeps noFaults exWorld2 exFb).1
    (reconcile exDeps noFaults exWorld2 exFb).2.1
    "FunctionBuild does not own PersistentVolumeClaim fb1-build-cache"
    rfl rfl (by decide) (by decide)

/-- Witness for C2: a foreign child under the canonical name is not
mutated, NotOwned is recorded, and the cycle fails. -/
theorem notOwned_conflict_witness :
    (reconcile exDeps noFaults exWorld2 exFb).2.1 = []
    ∧ (reconcile exDeps noFaults exWorld2 exFb).1.status.buildCacheReady
        = some (notOwnedCond ctBuildCacheReady "PersistentVolumeClaim" (exDeps.buildCacheName exFb.name))
    ∧ (reconcile exDeps noFaults exWorld2 exFb).2.2 ≠ none
    ∧ (∀ a ∈ (Reconcile exDeps noFaults exWorld2).1, a.isStatusWrite = true)
    ∧ (Reconcile exDeps noFaults exWorld2).2 ≠ none :=
  notOwned_conflict exDeps noFaults exWorld2 exFb exPvcForeign rfl rfl rfl rfl rfl rfl

/-- Witness for C7: with both children ready, resolution runs and stores
the digest. -/
theorem digest_resolution_gate_witness :
    (reconcile exDeps noFaults exWorld exFb).1.status.latestImage = "img@sha256:abc"
    ∧ (reconcile exDeps noFaults exWorld exFb).2.2 = none
    ∧ Act.resolveCall ((exDeps.setDefaults exFb.spec).image) ∈ (reconcile exDeps noFaults exWorld exFb).2.1 :=
  (digest_resolution_gate exDeps noFaults exWorld exFb).2.1
    [Act.createPvc exPvc] (some exPvc) [Act.createBuild exBuild] exBuild "img@sha256:abc"
    rfl (by decide) (by decide) (by decide) rfl

/-- Witness for C4: a second fault-free run on the converged state issues
zero further writes and succeeds. -/
theorem status_write_iff_and_idempotent_witness :
    (Reconcile exDeps noFaults (applyActs exWorld (Reconcile exDeps noFaults exWorld).1)).1.filter Act.isWrite = []
    ∧ (Reconcile exDeps noFaults (applyActs exWorld (Reconcile exDeps noFaults exWorld).1)).2 = none :=
  (status_write_iff_and_idempotent exDeps).2 exWorld (Reconcile exDeps noFaults exWorld).1
    (by
      intro nm sp d hd
      have h2 : some exPvc = some d := Except.ok.inj hd
      have h3 : exPvc = d := Option.some.inj h2
      rw [← h3]
      decide)
    (by
      intro nm sp d hd
      have h3 : exBuild = d := Except.ok.inj hd
      rw [← h3]
      decide)
    (by decide)

/-- Witness for C8: both extras deleted, desired created, on the concrete
test shape. -/
theorem extras_cleanup_witness :
    syncDesired { name := "cfg-new", spec := "dspec" }
        [{ name := "extra-configuration-1", spec := "s1" }, { name := "extra-configuration-2", spec := "s2" }]
        (fun _ => false)
      = ([DAct.delete "extra-configuration-1", DAct.delete "extra-configuration-2",
          DAct.create { name := "cfg-new", spec := "dspec" }], none) :=
  (extras_cleanup { name := "cfg-new", spec := "dspec" }
    { name := "extra-configuration-1", spec := "s1" }
    { name := "extra-configuration-2", spec := "s2" } (fun _ => false)).1 rfl rfl
